import Mathlib

/-!
# filehash: ingestion pipeline of `main.go`

A shallow embedding of `main.go` (package `main` of mpetavy/filehash): the
fingerprint function `md5`, the per-file unit `processFile`, the fan-out
`processDir`, the store opener `createDb` and the driver `run`.

The Go standard library and the `common` / `sqldb` packages are the
environment of the program.  They are represented by an explicit file-system
and store state, by total functions for the pure parts (`crypto/md5`,
`encoding/hex`), and by oracles (fields of `Env`) for the outcomes the program
cannot influence: which operating-system or engine calls fail, and what the
directory walker reports.
-/

namespace FileHash

/-! ## crypto/md5 and encoding/hex -/

/-- A Go `byte`. -/
abbrev Byte := Fin 256

/-- Per-round left-rotation amounts of MD5 (RFC 1321, section 3.4). -/
def md5Shift : List Nat :=
  [7, 12, 17, 22, 7, 12, 17, 22, 7, 12, 17, 22, 7, 12, 17, 22,
   5, 9, 14, 20, 5, 9, 14, 20, 5, 9, 14, 20, 5, 9, 14, 20,
   4, 11, 16, 23, 4, 11, 16, 23, 4, 11, 16, 23, 4, 11, 16, 23,
   6, 10, 15, 21, 6, 10, 15, 21, 6, 10, 15, 21, 6, 10, 15, 21]

/-- The sine-derived additive constants of MD5 (RFC 1321, section 3.4). -/
def md5Sine : List Nat :=
  [0xd76aa478, 0xe8c7b756, 0x242070db, 0xc1bdceee,
   0xf57c0faf, 0x4787c62a, 0xa8304613, 0xfd469501,
   0x698098d8, 0x8b44f7af, 0xffff5bb1, 0x895cd7be,
   0x6b901122, 0xfd987193, 0xa679438e, 0x49b40821,
   0xf61e2562, 0xc040b340, 0x265e5a51, 0xe9b6c7aa,
   0xd62f105d, 0x02441453, 0xd8a1e681, 0xe7d3fbc8,
   0x21e1cde6, 0xc33707d6, 0xf4d50d87, 0x455a14ed,
   0xa9e3e905, 0xfcefa3f8, 0x676f02d9, 0x8d2a4c8a,
   0xfffa3942, 0x8771f681, 0x6d9d6122, 0xfde5380c,
   0xa4beea44, 0x4bdecfa9, 0xf6bb4b60, 0xbebfbc70,
   0x289b7ec6, 0xeaa127fa, 0xd4ef3085, 0x04881d05,
   0xd9d4d039, 0xe6db99e5, 0x1fa27cf8, 0xc4ac5665,
   0xf4292244, 0x432aff97, 0xab9423a7, 0xfc93a039,
   0x655b59c3, 0x8f0ccc92, 0xffeff47d, 0x85845dd1,
   0x6fa87e4f, 0xfe2ce6e0, 0xa3014314, 0x4e0811a1,
   0xf7537e82, 0xbd3af235, 0x2ad7d2bb, 0xeb86d391]

/-- Two to the power 32: arithmetic on `uint32` is taken modulo this. -/
def two32 : Nat := 4294967296

/-- Bitwise complement of a `uint32`. -/
def not32 (x : Nat) : Nat := (x % two32) ^^^ (two32 - 1)

/-- Left rotation of a `uint32` by `c` bits (`bits.RotateLeft32`). -/
def rotl32 (x c : Nat) : Nat :=
  (((x % two32) <<< c) ||| ((x % two32) >>> (32 - c))) % two32

/-- The four chaining words `a, b, c, d` of the MD5 state. -/
structure Md5State where
  a : Nat
  b : Nat
  c : Nat
  d : Nat
deriving DecidableEq, Repr

/-- Initial chaining value of MD5. -/
def md5Init : Md5State :=
  { a := 0x67452301, b := 0xefcdab89, c := 0x98badcfe, d := 0x10325476 }

/-- The little-endian 32-bit word number `j` of a 64-byte block. -/
def blockWord (blk : List Nat) (j : Nat) : Nat :=
  blk.getD (4 * j) 0 + 256 * blk.getD (4 * j + 1) 0
    + 65536 * blk.getD (4 * j + 2) 0 + 16777216 * blk.getD (4 * j + 3) 0

/-- One of the 64 steps of the MD5 compression function. -/
def md5Step (blk : List Nat) (st : Md5State) (i : Nat) : Md5State :=
  let f :=
    if i < 16 then (st.b &&& st.c) ||| (not32 st.b &&& st.d)
    else if i < 32 then (st.d &&& st.b) ||| (not32 st.d &&& st.c)
    else if i < 48 then st.b ^^^ st.c ^^^ st.d
    else st.c ^^^ (st.b ||| not32 st.d)
  let g :=
    if i < 16 then i
    else if i < 32 then (5 * i + 1) % 16
    else if i < 48 then (3 * i + 5) % 16
    else (7 * i) % 16
  let sum := (f + st.a + md5Sine.getD i 0 + blockWord blk g) % two32
  { a := st.d, b := (st.b + rotl32 sum (md5Shift.getD i 0)) % two32, c := st.b, d := st.c }

/-- The MD5 compression function on one 64-byte block. -/
def md5Block (st : Md5State) (blk : List Nat) : Md5State :=
  let r := (List.range 64).foldl (md5Step blk) st
  { a := (st.a + r.a) % two32, b := (st.b + r.b) % two32,
    c := (st.c + r.c) % two32, d := (st.d + r.d) % two32 }

/-- The `n` low-order bytes of `x`, least significant first. -/
def leBytes : Nat → Nat → List Nat
  | 0, _ => []
  | n + 1, x => x % 256 :: leBytes n (x / 256)

/-- MD5 padding: a `0x80` byte, zero bytes up to 56 modulo 64, then the bit
length as a 64-bit little-endian integer. -/
def md5Pad (msg : List Nat) : List Nat :=
  msg ++ 0x80 :: List.replicate ((119 - msg.length % 64) % 64) 0
    ++ leBytes 8 ((8 * msg.length) % 18446744073709551616)

/-- Feed the first `n` 64-byte blocks of `bytes` through the compression
function. -/
def md5Blocks : Nat → Md5State → List Nat → Md5State
  | 0, st, _ => st
  | n + 1, st, bytes => md5Blocks n (md5Block st (bytes.take 64)) (bytes.drop 64)

/-- A natural number reduced to a byte. -/
def toByte (x : Nat) : Byte := ⟨x % 256, Nat.mod_lt x (by decide)⟩

/-- The digest `crypto.MD5.New()` holds after everything in `content` was
written to it, as returned by `Sum(nil)`: sixteen bytes. -/
def md5Sum (content : List Byte) : List Byte :=
  let padded := md5Pad (content.map Fin.val)
  let st := md5Blocks (padded.length / 64) md5Init padded
  (leBytes 4 st.a ++ leBytes 4 st.b ++ leBytes 4 st.c ++ leBytes 4 st.d).map toByte

/-- The table `hextable` of `encoding/hex`. -/
def hextable : List Char :=
  ['0', '1', '2', '3', '4', '5', '6', '7', '8', '9', 'a', 'b', 'c', 'd', 'e', 'f']

/-- The function `hex.EncodeToString`: two characters of `hextable` per byte,
high nibble first. -/
def EncodeToString (src : List Byte) : String :=
  String.mk (src.flatMap fun v => [hextable.getD (v.val >>> 4) '0', hextable.getD (v.val &&& 0x0f) '0'])

/-! ## The environment: errors, files, the store -/

/-- A Go `error` value, by origin. -/
inductive Err where
  | os (msg : String)
  | sql (msg : String)
  | walk (msg : String)
  | fileNotFound (path : String)
  | undefinedSource (source : String)
deriving DecidableEq, Repr

deriving instance DecidableEq for Except

/-- A row of the table `files (id integer not null primary key, source text,
path text, hash text)`. -/
structure Row where
  id : Nat
  source : String
  path : String
  hash : String
deriving DecidableEq, Repr

/-- The three values the program supplies in `insert into files
(source,path,hash) values (?,?,?)`. -/
def Row.data (r : Row) : String × String × String := (r.source, r.path, r.hash)

/-- How a regular file answers `os.Open` and the reads of `io.Copy`. -/
inductive Access where
  | ok
  | noOpen
  | noRead
deriving DecidableEq, Repr

/-- What the file system holds under one file identity: nothing, a directory,
a regular file with its bytes, or a regular file that is an SQLite database.
Of a database only the table `files` is represented: `sqlite none` has no such
table, `sqlite (some rows)` has it with the columns `(id, source, path, hash)`
of the program, and `sqliteOther columns bytes` has a table `files` with other
columns, whose rows are not represented. -/
inductive Node where
  | absent
  | dir
  | file (bytes : List Byte) (acc : Access)
  | sqlite (files : Option (List Row))
  | sqliteOther (columns : List String) (bytes : List Byte)
deriving DecidableEq, Repr

/-- An entry handed by the directory walker to its callback: the path and
`fi.IsDir()`. -/
structure Entry where
  filename : String
  isDir : Bool
deriving DecidableEq, Repr

/-- The calls the program makes on its environment, in order. -/
inductive Event where
  | stat (path : String)
  | remove (path : String)
  | connect (path : String)
  | createTable
  | insert (source path hash : String)
  | query (sql : String)
  | close
  | walk (dir : String)
  | read (path : String)
deriving DecidableEq, Repr

/-- The statements passed to `db.Execute`. -/
inductive Stmt where
  | createFiles
  | insertFile (source path hash : String)
deriving DecidableEq, Repr

/-- Everything the program does not decide: the command-line flags, how path
strings name files (`resolve`: two strings with the same image name the same
file), which file the SQLite engine opens for a data source name
(`engineFile`: the name is a URI, whose path ends at the first `?` or `#` and
in which `%` escapes are decoded), the bytes of an SQLite file (`serialize`),
the failures of operating-system and engine calls, and what
`common.WalkFiles` reports for a directory: the entries in visiting order and
the error it returns. -/
structure Env where
  flagDbFilename : String
  flagTruncate : Bool
  flagSource : String
  flagQuery : String
  flagInclude : String
  resolve : String → Nat
  engineFile : String → Nat
  serialize : Option (List Row) → List Byte
  deleteErr : String → Option Err
  createErr : Option Err
  insertErr : String → String → String → Option Err
  queryErr : Option Err
  walk : String → List Entry × Option Err

/-- The file system, the global `db` (`none` is `nil`, otherwise the identity
of the database file its data source name stands for) and the trace of
environment calls. -/
structure State where
  node : Nat → Node
  db : Option Nat
  trace : List Event

/-- Append an event to the trace. -/
def State.log (s : State) (ev : Event) : State :=
  { s with trace := s.trace ++ [ev] }

/-- Replace what the file system holds under identity `i`. -/
def State.setNode (s : State) (i : Nat) (n : Node) : State :=
  { s with node := fun j => if j = i then n else s.node j }

/-- The function `common.FileExists`. -/
def FileExists (env : Env) (path : String) (s : State) : Bool × State :=
  (decide (s.node (env.resolve path) ≠ Node.absent), s.log (Event.stat path))

/-- The function `common.FileDelete`. -/
def FileDelete (env : Env) (path : String) (s : State) : Option Err × State :=
  match env.deleteErr path with
  | some e => (some e, s.log (Event.remove path))
  | none => (none, (s.log (Event.remove path)).setNode (env.resolve path) Node.absent)

/-- The data source name of main.go 123:
`fmt.Sprintf("file:%s?cache=shared", name)`. -/
def dsn (name : String) : String := "file:" ++ name ++ "?cache=shared"

/-- The function `sqldb.NewSqlDb("sqlite3", dataSource)`: it records the data
source name and touches no file; it does not fail.  The file is opened by the
first statement. -/
def NewSqlDb (env : Env) (dataSource : String) (s : State) : Except Err Nat × State :=
  (Except.ok (env.engineFile dataSource), s.log (Event.connect dataSource))

/-- The id SQLite gives a new row of an `integer primary key` table: one more
than the largest id present. -/
def nextId (rows : List Row) : Nat := (rows.map Row.id).foldl max 0 + 1

/-- The method `Execute` of a connection on the database file `h`, for the two
statements of the program.  The engine opens the file now, creating it when
nothing is there; an empty file is a database without tables.  `create table
if not exists` leaves an existing table `files` as it is, whatever its
columns. -/
def Execute (env : Env) (h : Nat) (q : Stmt) (s : State) : Option Err × State :=
  match q with
  | Stmt.createFiles =>
    let s1 := s.log Event.createTable
    match env.createErr with
    | some e => (some e, s1)
    | none =>
      match s.node h with
      | Node.absent => (none, s1.setNode h (Node.sqlite (some [])))
      | Node.file [] Access.ok => (none, s1.setNode h (Node.sqlite (some [])))
      | Node.sqlite none => (none, s1.setNode h (Node.sqlite (some [])))
      | Node.sqlite (some _) => (none, s1)
      | Node.sqliteOther _ _ => (none, s1)
      | Node.dir => (some (Err.sql "unable to open database file"), s1)
      | Node.file _ _ => (some (Err.sql "file is not a database"), s1)
  | Stmt.insertFile source path hash =>
    let s1 := s.log (Event.insert source path hash)
    match env.insertErr source path hash with
    | some e => (some e, s1)
    | none =>
      match s.node h with
      | Node.sqlite (some rows) =>
        (none, s1.setNode h (Node.sqlite (some (rows ++ [Row.mk (nextId rows) source path hash]))))
      | Node.sqlite none => (some (Err.sql "no such table: files"), s1)
      | Node.absent => (some (Err.sql "no such table: files"), s1.setNode h (Node.sqlite none))
      | Node.file [] Access.ok => (some (Err.sql "no such table: files"), s1)
      | Node.sqliteOther columns _ =>
        if "source" ∈ columns ∧ "path" ∈ columns ∧ "hash" ∈ columns then (none, s1)
        else (some (Err.sql "table files has no such column"), s1)
      | Node.dir => (some (Err.sql "unable to open database file"), s1)
      | Node.file _ _ => (some (Err.sql "file is not a database"), s1)

/-- What `os.Open` followed by `io.Copy` delivers from a node: all its bytes,
or the error of the call that failed. -/
def readNode (env : Env) : Node → Except Err (List Byte)
  | Node.absent => Except.error (Err.os "no such file or directory")
  | Node.dir => Except.error (Err.os "is a directory")
  | Node.file _ Access.noOpen => Except.error (Err.os "permission denied")
  | Node.file _ Access.noRead => Except.error (Err.os "input/output error")
  | Node.file bytes Access.ok => Except.ok bytes
  | Node.sqlite t => Except.ok (env.serialize t)
  | Node.sqliteOther _ bytes => Except.ok bytes

/-! ## The program -/

/-- Source function `md5` (main.go 38-64): open the file, copy it into an MD5
digest, return the digest in hexadecimal; the error of `os.Open` or `io.Copy`
is returned with an empty string. -/
def md5 (env : Env) (filename : String) (s : State) : Except Err String × State :=
  let s1 := s.log (Event.read filename)
  match readNode env (s.node (env.resolve filename)) with
  | Except.error err => (Except.error err, s1)
  | Except.ok bytes =>
    let fingerprint := md5Sum bytes
    let hash := EncodeToString fingerprint
    (Except.ok hash, s1)

/-- Source function `processFile` (main.go 66-84).  The global `db` is set by
`run` before any call; on a `nil` handle the insert is taken to fail. -/
def processFile (env : Env) (source fileName : String) (s : State) : Option Err × State :=
  if fileName = env.flagDbFilename then (none, s)
  else
    match md5 env fileName s with
    | (Except.error err, s1) => (some err, s1)
    | (Except.ok hash, s1) =>
      match s1.db with
      | none => (some (Err.sql "database is closed"), s1)
      | some h =>
        match Execute env h (Stmt.insertFile source fileName hash) s1 with
        | (some err, s2) => (some err, s2)
        | (none, s2) => (none, s2)

/-- Lines 123-135 of `createDb`: the connection for the data source name built
from `*flagDbFilename`, and the creation of the table when `isNew`. -/
def createDbOpen (env : Env) (isNew : Bool) (s : State) : Except Err Nat × State :=
  match NewSqlDb env (dsn env.flagDbFilename) s with
  | (Except.error err, s1) => (Except.error err, s1)
  | (Except.ok db, s1) =>
    if isNew then
      match Execute env db Stmt.createFiles s1 with
      | (some err, s2) => (Except.error err, s2)
      | (none, s2) => (Except.ok db, s2)
    else (Except.ok db, s1)

/-- Source function `createDb` (main.go 112-136). -/
def createDb (env : Env) (filename : String) (s : State) : Except Err Nat × State :=
  match FileExists env filename s with
  | (found, s1) =>
    if found && env.flagTruncate then
      match FileDelete env filename s1 with
      | (some err, s2) => (Except.error err, s2)
      | (none, s2) => createDbOpen env true s2
    else createDbOpen env (!found) s1

/-- Source function `query` (main.go 138-161): the statement is run by the
engine; the rendering of the result is not represented. -/
def query (env : Env) (s : State) : Option Err × State :=
  match env.queryErr with
  | some err => (some err, s.log (Event.query env.flagQuery))
  | none => (none, s.log (Event.query env.flagQuery))

/-! ## Goroutines -/

/-- A goroutine launched by `processDir` (main.go 94-101) that has not yet
finished.  Its body, `processFile`, touches shared state twice: when `md5`
reads the file and when `db.Execute` inserts the row.  `start` is the goroutine
before the first, `hashed` the goroutine between the two. -/
inductive Goroutine where
  | start (source filename : String)
  | hashed (source filename hash : String)
deriving DecidableEq, Repr

/-- The running program: the shared state, the counter of the `sync.WaitGroup`
of `run`, and the goroutines launched and not yet finished. -/
structure Sys where
  st : State
  wg : Nat
  goroutines : List Goroutine

/-- One step of a goroutine: `processFile` up to and including its next access
to shared state.  The result is the rest of the goroutine, or `none` when
`processFile` has returned (its error is only logged). -/
def step (env : Env) (g : Goroutine) (s : State) : Option Goroutine × State :=
  match g with
  | Goroutine.start source filename =>
    if filename = env.flagDbFilename then (none, s)
    else
      match md5 env filename s with
      | (Except.error _, s1) => (none, s1)
      | (Except.ok hash, s1) => (some (Goroutine.hashed source filename hash), s1)
  | Goroutine.hashed source filename hash =>
    match s.db with
    | none => (none, s)
    | some h => (none, (Execute env h (Stmt.insertFile source filename hash) s).2)

/-- Run a goroutine to its end: at most two steps. -/
def finish (env : Env) (g : Goroutine) (s : State) : State :=
  match step env g s with
  | (none, s1) => s1
  | (some g1, s1) => (step env g1 s1).2

/-- The scheduler lets goroutine number `i` of the pool take one step; a
goroutine that finishes runs its deferred `wg.Done()` and leaves the pool. -/
def schedule (env : Env) (y : Sys) (i : Nat) : Sys :=
  match y.goroutines[i]? with
  | none => y
  | some g =>
    match step env g y.st with
    | (none, s1) => { st := s1, wg := y.wg - 1, goroutines := y.goroutines.eraseIdx i }
    | (some g1, s1) => { st := s1, wg := y.wg, goroutines := y.goroutines.set i g1 }

/-- A sequence of scheduler choices. -/
def runSchedule (env : Env) (choices : List Nat) (y : Sys) : Sys :=
  choices.foldl (schedule env) y

/-- The method `wg.Wait()`: the caller blocks while the goroutines run, first
as the scheduler chooses (`choices`), then each remaining one to its end. -/
def Wait (env : Env) (choices : List Nat) (y : Sys) : Sys :=
  let y1 := runSchedule env choices y
  { st := y1.goroutines.foldl (fun s g => finish env g s) y1.st,
    wg := y1.wg - y1.goroutines.length,
    goroutines := [] }

/-- The closure `processDir` passes to `common.WalkFiles` (main.go 87-104):
nothing for a directory; otherwise `wg.Add(1)` and a new goroutine. -/
def visit (source : String) (e : Entry) (y : Sys) : Option Err × Sys :=
  if e.isDir then (none, y)
  else
    (none, { y with wg := y.wg + 1,
                    goroutines := y.goroutines ++ [Goroutine.start source e.filename] })

/-- The visiting loop of the walker: the callback on each entry in turn, until
it returns an error; after each call the goroutines run as the scheduler
chooses (one list of choices per entry). -/
def walkLoop (env : Env) (cb : Entry → Sys → Option Err × Sys) :
    List Entry → List (List Nat) → Sys → Option Err × Sys
  | [], _, y => (none, y)
  | e :: es, choices, y =>
    match cb e y with
    | (some err, y1) => (some err, y1)
    | (none, y1) => walkLoop env cb es choices.tail (runSchedule env (choices.headD []) y1)

/-- The function `common.WalkFiles`: visits the entries the environment
reports for `dir`, then returns the error the environment reports. -/
def WalkFiles (env : Env) (dir : String) (cb : Entry → Sys → Option Err × Sys)
    (choices : List (List Nat)) (y : Sys) : Option Err × Sys :=
  match walkLoop env cb (env.walk dir).1 choices { y with st := y.st.log (Event.walk dir) } with
  | (some err, y1) => (some err, y1)
  | (none, y1) => ((env.walk dir).2, y1)

/-- Source function `processDir` (main.go 86-110). -/
def processDir (env : Env) (choices : List (List Nat)) (source dir : String) (y : Sys) :
    Option Err × Sys :=
  match WalkFiles env dir (visit source) choices y with
  | (some err, y1) => (some err, y1)
  | (none, y1) => (none, y1)

/-- The scheduler's choices during one `run`: during the walk, and during
`wg.Wait()`. -/
structure Schedule where
  walk : List (List Nat)
  wait : List Nat

/-- A program state without goroutines. -/
def idle (s : State) : Sys := { st := s, wg := 0, goroutines := [] }

/-- The deferred `db.Close()` of `run`. -/
def Close (y : Sys) : Sys := { y with st := y.st.log Event.close }

/-- Source function `run` (main.go 163-204).  The result is the returned error
and the program state at the moment `run` returns. -/
def run (env : Env) (sched : Schedule) (s : State) : Option Err × Sys :=
  match createDb env env.flagDbFilename s with
  | (Except.error err, s1) => (some err, idle { s1 with db := none })
  | (Except.ok h, s1) =>
    let s2 : State := { s1 with db := some h }
    if env.flagQuery ≠ "" then
      match query env s2 with
      | (some err, s3) => (some err, Close (idle s3))
      | (none, s3) => (none, Close (idle s3))
    else if env.flagInclude ≠ "" then
      match FileExists env env.flagInclude s2 with
      | (found, s3) =>
        if !found then (some (Err.fileNotFound env.flagInclude), Close (idle s3))
        else if env.flagSource = "" then
          (some (Err.undefinedSource env.flagSource), Close (idle s3))
        else
          match processDir env sched.walk env.flagSource env.flagInclude (idle s3) with
          | (some err, y) => (some err, Close y)
          | (none, y) => (none, Close (Wait env sched.wait y))
    else (none, Close (idle s2))

/-- The rows of the `files` table of the database file `h`; `none` when `h` is
not a database or has no such table. -/
def State.rows (s : State) (h : Nat) : Option (List Row) :=
  match s.node h with
  | Node.sqlite t => t
  | _ => none

/-- The columns of the statement `create table if not exists files (id integer
not null primary key, source text,path text, hash text)`. -/
def filesColumns : List String := ["id", "source", "path", "hash"]

/-- The columns of the table `files` of the database file `h`; `none` when `h`
is not a database or has no such table. -/
def State.columns (s : State) (h : Nat) : Option (List String) :=
  match s.node h with
  | Node.sqlite (some _) => some filesColumns
  | Node.sqliteOther columns _ => some columns
  | _ => none

/-- What `common.FileExists(*flagInclude)` answers when `run` evaluates it,
that is, after `createDb`. -/
def includeExists (env : Env) (s : State) : Bool :=
  (FileExists env env.flagInclude (createDb env env.flagDbFilename s).2).1

/-! ## A demonstration tree -/

/-- Flags `-db files.db -s t1 -i data` and a walker reporting a file, a
subdirectory and a file inside it.  The program runs in directory `/srv`:
`/srv/files.db` names the same file as `files.db`, and so do their data
source names; the data source name of `a?b.db` stands for the file `a`. -/
def demoEnv : Env :=
  { flagDbFilename := "files.db", flagTruncate := false, flagSource := "t1", flagQuery := "",
    flagInclude := "data",
    resolve := fun p =>
      if p = "files.db" then 0 else if p = "/srv/files.db" then 0 else if p = "data" then 1
      else if p = "data/a.txt" then 2 else if p = "data/sub" then 3
      else if p = "data/sub/b.txt" then 4 else if p = "data/copy.txt" then 5
      else if p = "data/locked.txt" then 6 else if p = "/srv" then 8 else if p = "." then 8
      else if p = "/srv/data" then 1 else if p = "/srv/data/locked.txt" then 6
      else if p = "a" then 9 else if p = "a?b.db" then 10 else 7,
    engineFile := fun d =>
      if d = "file:files.db?cache=shared" then 0
      else if d = "file:/srv/files.db?cache=shared" then 0
      else if d = "file:a?b.db?cache=shared" then 9 else 7,
    serialize := fun _ => [],
    deleteErr := fun _ => none, createErr := none,
    insertErr := fun _ _ _ => none, queryErr := none,
    walk := fun _ => ([Entry.mk "data/a.txt" false, Entry.mk "data/sub" true,
      Entry.mk "data/sub/b.txt" false], none) }

/-- The files of the demonstration tree, before any store file exists:
`data/a.txt` and `data/copy.txt` hold the bytes of `hi`, `data/sub/b.txt` is
empty, `data/locked.txt` cannot be opened. -/
def demoState : State :=
  { node := fun i =>
      if i = 1 then Node.dir else if i = 2 then Node.file [104, 105] Access.ok
      else if i = 3 then Node.dir else if i = 4 then Node.file [] Access.ok
      else if i = 5 then Node.file [104, 105] Access.ok
      else if i = 6 then Node.file [1, 2, 3] Access.noOpen
      else if i = 8 then Node.dir else Node.absent,
    db := none, trace := [] }

/-- A row of an earlier ingestion. -/
def oldRow : Row := Row.mk 1 "t0" "old/x.txt" "d41d8cd98f00b204e9800998ecf8427e"

/-- The demonstration tree with a store file `files.db` holding table `t`. -/
def demoStore (t : Option (List Row)) : State := demoState.setNode 0 (Node.sqlite t)

/-- The demonstration tree with the store open on `files.db` holding `rows`. -/
def demoOpen (rows : List Row) : State := { demoStore (some rows) with db := some 0 }

/-- The demonstration flags with truncate set and no source tag. -/
def truncEnv : Env := { demoEnv with flagTruncate := true, flagSource := "" }

/-- The scheduler never runs a goroutine before `wg.Wait()`. -/
def lazySchedule : Schedule := { walk := [], wait := [] }

/-! ## What the goroutines owe the table -/

/-- The values `(source, path, hash)` of the row a goroutine will still append
to the table, read against the file system of `s0`; `none` when it will append
nothing: the path is the store filename, the file cannot be read, or the
insert fails. -/
def pendingRow (env : Env) (s0 : State) : Goroutine → Option (String × String × String)
  | Goroutine.start source filename =>
    if filename = env.flagDbFilename then none
    else
      match readNode env (s0.node (env.resolve filename)) with
      | Except.error _ => none
      | Except.ok bytes =>
        match env.insertErr source filename (EncodeToString (md5Sum bytes)) with
        | some _ => none
        | none => some (source, filename, EncodeToString (md5Sum bytes))
  | Goroutine.hashed source filename hash =>
    match env.insertErr source filename hash with
    | some _ => none
    | none => some (source, filename, hash)

/-- The row owed for a walker entry: none for a directory, otherwise that of
the goroutine launched for it. -/
def entryRow (env : Env) (s0 : State) (source : String) (e : Entry) :
    Option (String × String × String) :=
  if e.isDir then none else pendingRow env s0 (Goroutine.start source e.filename)

/-- A goroutine whose read does not depend on the inserts of the others: its
file is not the database file `h`, unless it is skipped by name. -/
def Safe (env : Env) (h : Nat) : Goroutine → Prop
  | Goroutine.start _ filename => filename = env.flagDbFilename ∨ env.resolve filename ≠ h
  | Goroutine.hashed _ _ _ => True

/-- The invariant of an ingestion into the database file `h` that began in
file system `s0` with table `rows0`: the connection is on `h`, no other file
has changed, the counter equals the number of live goroutines, and the rows
added so far together with the rows still owed make up `target`. -/
def Good (env : Env) (s0 : State) (h : Nat) (rows0 : List Row)
    (target : List (String × String × String)) (y : Sys) : Prop :=
  y.st.db = some h
  ∧ (∀ j, j ≠ h → y.st.node j = s0.node j)
  ∧ (∀ g ∈ y.goroutines, Safe env h g)
  ∧ y.wg = y.goroutines.length
  ∧ ∃ added, y.st.rows h = some (rows0 ++ added)
      ∧ (added.map Row.data ++ y.goroutines.filterMap (pendingRow env s0)).Perm target

/-- A walk that reports one file and then fails. -/
def brokenWalkEnv : Env :=
  { demoEnv with
    walk := fun _ => ([Entry.mk "data/a.txt" false],
      some (Err.walk "open data/sub: permission denied")) }

/-- Flags `-db files.db -s t1 -i /srv` given in directory `/srv`: the walker
reports the store file as `/srv/files.db`. -/
def aliasEnv : Env :=
  { demoEnv with
    flagInclude := "/srv",
    walk := fun _ => ([Entry.mk "/srv/files.db" false], none) }

/-- The demonstration walk with an unreadable file among the readable ones. -/
def lockedEnv : Env :=
  { demoEnv with
    walk := fun _ => ([Entry.mk "data/a.txt" false, Entry.mk "data/locked.txt" false,
      Entry.mk "data/sub" true, Entry.mk "data/sub/b.txt" false], none) }

/-- Flags `-db /srv/files.db -s t1 -i /srv`: the walker reports the store file
under the store filename itself, a directory, and an unreadable file. -/
def selfEnv : Env :=
  { demoEnv with
    flagDbFilename := "/srv/files.db",
    flagInclude := "/srv",
    walk := fun _ => ([Entry.mk "/srv/files.db" false, Entry.mk "/srv/data" true,
      Entry.mk "/srv/data/locked.txt" false], none) }

/-- The tree of `selfEnv` before the store file exists: the directories `/srv`
and `/srv/data` and the file `/srv/data/locked.txt`, which cannot be
opened. -/
def selfState : State :=
  { node := fun i =>
      if i = 1 then Node.dir else if i = 6 then Node.file [1, 2, 3] Access.noOpen
      else if i = 8 then Node.dir else Node.absent,
    db := none, trace := [] }

/-- Flag `-db a?b.db`: the data source name is `file:a?b.db?cache=shared`,
which the engine reads as the file `a` with the query `b.db?cache=shared`. -/
def queryNameEnv : Env := { demoEnv with flagDbFilename := "a?b.db" }

/-- Files `a?b.db` and `a`, each holding what is given. -/
def queryNameState (named engine : Node) : State :=
  (demoState.setNode 10 named).setNode 9 engine

/-! ## Basic facts about the state -/

@[simp] theorem log_node (s : State) (ev : Event) : (s.log ev).node = s.node := rfl

@[simp] theorem log_db (s : State) (ev : Event) : (s.log ev).db = s.db := rfl

@[simp] theorem log_trace (s : State) (ev : Event) : (s.log ev).trace = s.trace ++ [ev] := rfl

@[simp] theorem setNode_db (s : State) (i : Nat) (n : Node) : (s.setNode i n).db = s.db := rfl

@[simp] theorem setNode_trace (s : State) (i : Nat) (n : Node) :
    (s.setNode i n).trace = s.trace := rfl

@[simp] theorem setNode_same (s : State) (i : Nat) (n : Node) : (s.setNode i n).node i = n := by
  simp [State.setNode]

theorem setNode_other (s : State) {i j : Nat} (n : Node) (h : j ≠ i) :
    (s.setNode i n).node j = s.node j := by
  simp [State.setNode, h]

@[simp] theorem log_rows (s : State) (ev : Event) (h : Nat) : (s.log ev).rows h = s.rows h := rfl

@[simp] theorem setNode_rows_same (s : State) (h : Nat) (t : Option (List Row)) :
    (s.setNode h (Node.sqlite t)).rows h = t := by
  simp [State.rows]

theorem rows_eq_some {s : State} {h : Nat} {rows : List Row} (hr : s.rows h = some rows) :
    s.node h = Node.sqlite (some rows) := by
  unfold State.rows at hr
  split at hr
  · subst hr; assumption
  · cases hr

/-! ## The fingerprint -/

theorem leBytes_length (n x : Nat) : (leBytes n x).length = n := by
  induction n generalizing x with
  | zero => rfl
  | succ n ih => simp [leBytes, ih]

theorem md5Sum_length (content : List Byte) : (md5Sum content).length = 16 := by
  simp [md5Sum, leBytes_length]

theorem hextable_getD_mem (k : Nat) : hextable.getD k '0' ∈ hextable := by
  rcases Nat.lt_or_ge k hextable.length with h | h
  · rw [List.getD_eq_getElem _ _ h]
    exact List.getElem_mem h
  · rw [List.getD_eq_default _ _ h]
    decide

theorem EncodeToString_length (src : List Byte) :
    (EncodeToString src).length = 2 * src.length := by
  unfold EncodeToString
  rw [String.length]
  induction src with
  | nil => rfl
  | cons b bs ih => simp only [List.flatMap_cons, List.length_append, ih, List.length_cons]; simp; omega

theorem EncodeToString_chars (src : List Byte) :
    ∀ c ∈ (EncodeToString src).toList, c ∈ hextable := by
  intro c hc
  have hl : (EncodeToString src).toList = src.flatMap fun v =>
      [hextable.getD (v.val >>> 4) '0', hextable.getD (v.val &&& 0x0f) '0'] := rfl
  rw [hl, List.mem_flatMap] at hc
  obtain ⟨b, _, hb⟩ := hc
  simp only [List.mem_cons, List.mem_singleton, List.not_mem_nil, or_false] at hb
  rcases hb with rfl | rfl <;> exact hextable_getD_mem _

theorem md5_of_read {env : Env} {filename : String} {s : State} {bytes : List Byte}
    (h : readNode env (s.node (env.resolve filename)) = Except.ok bytes) :
    md5 env filename s = (Except.ok (EncodeToString (md5Sum bytes)), s.log (Event.read filename)) := by
  simp [md5, h]

theorem md5_of_read_error {env : Env} {filename : String} {s : State} {err : Err}
    (h : readNode env (s.node (env.resolve filename)) = Except.error err) :
    md5 env filename s = (Except.error err, s.log (Event.read filename)) := by
  simp [md5, h]

/-- C9: for a file that can be opened and read, whatever its bytes, `md5`
returns no error but a string of exactly 32 characters, each of them one of
`0`-`9`, `a`-`f`: the hexadecimal form of the 16-byte digest. -/
theorem md5_hash_format (env : Env) (filename : String) (s : State) (bytes : List Byte)
    (hread : readNode env (s.node (env.resolve filename)) = Except.ok bytes) :
    ∃ hash, (md5 env filename s).1 = Except.ok hash
      ∧ hash = EncodeToString (md5Sum bytes)
      ∧ (md5Sum bytes).length = 16
      ∧ hash.length = 32
      ∧ ∀ c ∈ hash.toList, c ∈ "0123456789abcdef".toList := by
  refine ⟨EncodeToString (md5Sum bytes), ?_, rfl, md5Sum_length bytes, ?_, ?_⟩
  · rw [md5_of_read hread]
  · rw [EncodeToString_length, md5Sum_length]
  · exact EncodeToString_chars _

/-- Witness of C9: the empty file `data/sub/b.txt` of the demonstration tree. -/
theorem md5_hash_format_witness :
    readNode demoEnv (demoState.node (demoEnv.resolve "data/sub/b.txt")) = Except.ok []
    ∧ ∃ hash, (md5 demoEnv "data/sub/b.txt" demoState).1 = Except.ok hash
      ∧ hash = EncodeToString (md5Sum [])
      ∧ (md5Sum []).length = 16
      ∧ hash.length = 32
      ∧ ∀ c ∈ hash.toList, c ∈ "0123456789abcdef".toList :=
  ⟨by decide, md5_hash_format demoEnv "data/sub/b.txt" demoState [] (by decide)⟩

/-! ## processFile -/

theorem processFile_store_name (env : Env) (source : String) (s : State) :
    processFile env source env.flagDbFilename s = (none, s) := by
  simp [processFile]

theorem Execute_insert_ok {env : Env} {h : Nat} {source path hash : String} {s : State}
    {rows : List Row} (herr : env.insertErr source path hash = none)
    (hrows : s.rows h = some rows) :
    Execute env h (Stmt.insertFile source path hash) s
      = (none, (s.log (Event.insert source path hash)).setNode h
          (Node.sqlite (some (rows ++ [Row.mk (nextId rows) source path hash])))) := by
  simp [Execute, herr, rows_eq_some hrows]

theorem Execute_insert_rows (env : Env) (h : Nat) (source path hash : String) (s : State) :
    (Execute env h (Stmt.insertFile source path hash) s).2.rows h = s.rows h
    ∨ ∃ rows, s.rows h = some rows
        ∧ (Execute env h (Stmt.insertFile source path hash) s).2.rows h
            = some (rows ++ [Row.mk (nextId rows) source path hash]) := by
  unfold Execute
  simp only
  cases env.insertErr source path hash with
  | some e => left; rfl
  | none =>
    simp only
    cases hn : s.node h with
    | absent => left; simp [State.rows, hn]
    | dir => left; simp [State.rows, hn]
    | file b a => left; cases b <;> cases a <;> simp [State.rows, hn]
    | sqliteOther c b =>
      left
      by_cases hc : "source" ∈ c ∧ "path" ∈ c ∧ "hash" ∈ c <;> simp [State.rows, hn, hc]
    | sqlite t =>
      cases t with
      | none => left; simp [State.rows, hn]
      | some rows => right; exact ⟨rows, by simp [State.rows, hn], by simp⟩

theorem Execute_insert_trace (env : Env) (h : Nat) (source path hash : String) (s : State) :
    (Execute env h (Stmt.insertFile source path hash) s).2.trace
      = s.trace ++ [Event.insert source path hash] := by
  unfold Execute
  simp only
  split
  · rfl
  · split <;> first | rfl | (split <;> rfl)

/-- The row `processFile` appends, when it appends one, carries the
fingerprint of the bytes read. -/
theorem processFile_inserted_hash {env : Env} {source fileName : String} {s : State}
    {bytes : List Byte} {h : Nat} {rows : List Row} {r : Row}
    (hread : readNode env (s.node (env.resolve fileName)) = Except.ok bytes)
    (hdb : s.db = some h) (hrows : s.rows h = some rows)
    (hins : (processFile env source fileName s).2.rows h = some (rows ++ [r])) :
    r.hash = EncodeToString (md5Sum bytes) := by
  unfold processFile at hins
  split at hins
  · rw [hrows] at hins
    simp at hins
  · rw [md5_of_read hread] at hins
    simp only [log_db, hdb] at hins
    rcases Execute_insert_rows env h source fileName (EncodeToString (md5Sum bytes))
        (s.log (Event.read fileName)) with hsame | ⟨rows1, hr1, hnew⟩
    · have hst : (match Execute env h (Stmt.insertFile source fileName
            (EncodeToString (md5Sum bytes))) (s.log (Event.read fileName)) with
          | (some err, s2) => (some err, s2)
          | (none, s2) => (none, s2)).2
          = (Execute env h (Stmt.insertFile source fileName
            (EncodeToString (md5Sum bytes))) (s.log (Event.read fileName))).2 := by
        split <;> simp_all
      rw [hst, hsame, log_rows, hrows] at hins
      simp at hins
    · have hst : (match Execute env h (Stmt.insertFile source fileName
            (EncodeToString (md5Sum bytes))) (s.log (Event.read fileName)) with
          | (some err, s2) => (some err, s2)
          | (none, s2) => (none, s2)).2
          = (Execute env h (Stmt.insertFile source fileName
            (EncodeToString (md5Sum bytes))) (s.log (Event.read fileName))).2 := by
        split <;> simp_all
      rw [hst, hnew] at hins
      rw [log_rows, hrows] at hr1
      cases hr1
      simp only [Option.some.injEq, List.append_cancel_left_eq, List.cons.injEq, and_true] at hins
      rw [← hins]

/-- C10: two readable files with the same bytes, at any two paths, in any two
states and under any two source tags, get the same result from `md5`; `md5`
of the same file a second time gives the same result; and the rows
`processFile` appends for the two files have equal `hash` columns. -/
theorem md5_content_identity (env : Env) (p1 p2 src1 src2 : String) (s1 s2 : State)
    (bytes : List Byte)
    (hread1 : readNode env (s1.node (env.resolve p1)) = Except.ok bytes)
    (hread2 : readNode env (s2.node (env.resolve p2)) = Except.ok bytes) :
    (md5 env p1 s1).1 = (md5 env p2 s2).1
    ∧ (md5 env p1 (md5 env p1 s1).2).1 = (md5 env p1 s1).1
    ∧ ∀ h1 h2 rows1 rows2 r1 r2,
        s1.db = some h1 → s1.rows h1 = some rows1 →
        s2.db = some h2 → s2.rows h2 = some rows2 →
        (processFile env src1 p1 s1).2.rows h1 = some (rows1 ++ [r1]) →
        (processFile env src2 p2 s2).2.rows h2 = some (rows2 ++ [r2]) →
        r1.hash = r2.hash := by
  refine ⟨?_, ?_, ?_⟩
  · rw [md5_of_read hread1, md5_of_read hread2]
  · have h2 : readNode env ((md5 env p1 s1).2.node (env.resolve p1)) = Except.ok bytes := by
      rw [md5_of_read hread1]; exact hread1
    rw [md5_of_read h2, md5_of_read hread1]
  · intro h1 h2 rows1 rows2 r1 r2 hdb1 hr1 hdb2 hr2 hi1 hi2
    rw [processFile_inserted_hash hread1 hdb1 hr1 hi1,
      processFile_inserted_hash hread2 hdb2 hr2 hi2]

/-! ## createDb -/

theorem createDbOpen_false (env : Env) (s : State) :
    createDbOpen env false s
      = (Except.ok (env.engineFile (dsn env.flagDbFilename)),
          s.log (Event.connect (dsn env.flagDbFilename))) := rfl

theorem createDbOpen_true_state (env : Env) (s : State) :
    (createDbOpen env true s).2
      = (Execute env (env.engineFile (dsn env.flagDbFilename)) Stmt.createFiles
          (s.log (Event.connect (dsn env.flagDbFilename)))).2 := by
  show (match Execute env (env.engineFile (dsn env.flagDbFilename)) Stmt.createFiles
      (s.log (Event.connect (dsn env.flagDbFilename))) with
    | (some err, s2) => (Except.error err, s2)
    | (none, s2) => (Except.ok (env.engineFile (dsn env.flagDbFilename)), s2)).2 = _
  cases Execute env (env.engineFile (dsn env.flagDbFilename)) Stmt.createFiles
      (s.log (Event.connect (dsn env.flagDbFilename))) with
  | mk r s2 => cases r <;> rfl

theorem createDbOpen_ok_handle {env : Env} {isNew : Bool} {s s' : State} {h : Nat}
    (hok : createDbOpen env isNew s = (Except.ok h, s')) :
    h = env.engineFile (dsn env.flagDbFilename) := by
  cases isNew with
  | false =>
    rw [createDbOpen_false] at hok
    simp only [Prod.mk.injEq, Except.ok.injEq] at hok
    exact hok.1.symm
  | true =>
    have hx : (match Execute env (env.engineFile (dsn env.flagDbFilename)) Stmt.createFiles
        (s.log (Event.connect (dsn env.flagDbFilename))) with
      | (some err, s2) => (Except.error err, s2)
      | (none, s2) => (Except.ok (env.engineFile (dsn env.flagDbFilename)), s2))
        = (Except.ok h, s') := hok
    split at hx
    · cases hx
    · simp only [Prod.mk.injEq, Except.ok.injEq] at hx
      exact hx.1.symm

theorem Execute_create_trace (env : Env) (h : Nat) (s : State) :
    (Execute env h Stmt.createFiles s).2.trace = s.trace ++ [Event.createTable] := by
  unfold Execute
  simp only
  split
  · rfl
  · split <;> rfl

theorem Execute_create_node_other (env : Env) (h : Nat) (s : State) (j : Nat) (hj : j ≠ h) :
    (Execute env h Stmt.createFiles s).2.node j = s.node j := by
  unfold Execute
  simp only
  split
  · rfl
  · split <;> first | rfl | exact setNode_other _ _ hj

theorem Execute_create_absent {env : Env} {h : Nat} {s : State} {r : Option Err} {s' : State}
    (hn : s.node h = Node.absent) (hx : Execute env h Stmt.createFiles s = (r, s'))
    (hr : r = none) :
    s' = (s.log Event.createTable).setNode h (Node.sqlite (some [])) := by
  subst hr
  unfold Execute at hx
  simp only [hn] at hx
  split at hx
  · cases hx
  · simp only [Prod.mk.injEq, true_and] at hx
    exact hx.symm

/-- When nothing is at the engine's file, a successful connect-and-create
leaves there the empty table with the columns of the program. -/
theorem createDbOpen_true_absent (env : Env) {s s' : State} {h : Nat}
    (hn : s.node (env.engineFile (dsn env.flagDbFilename)) = Node.absent)
    (hok : createDbOpen env true s = (Except.ok h, s')) :
    h = env.engineFile (dsn env.flagDbFilename)
    ∧ s'.rows h = some []
    ∧ s'.columns h = some filesColumns
    ∧ s'.trace = s.trace ++ [Event.connect (dsn env.flagDbFilename), Event.createTable] := by
  have hh := createDbOpen_ok_handle hok
  have hx : (match Execute env (env.engineFile (dsn env.flagDbFilename)) Stmt.createFiles
      (s.log (Event.connect (dsn env.flagDbFilename))) with
    | (some err, s2) => (Except.error err, s2)
    | (none, s2) => (Except.ok (env.engineFile (dsn env.flagDbFilename)), s2))
      = (Except.ok h, s') := hok
  cases he : Execute env (env.engineFile (dsn env.flagDbFilename)) Stmt.createFiles
      (s.log (Event.connect (dsn env.flagDbFilename))) with
  | mk r s2 =>
    rw [he] at hx
    cases r with
    | some err => cases hx
    | none =>
      simp only [Prod.mk.injEq, Except.ok.injEq] at hx
      obtain ⟨-, rfl⟩ := hx
      have hs2 := Execute_create_absent (s := s.log (Event.connect (dsn env.flagDbFilename)))
        hn he rfl
      subst hs2
      subst hh
      refine ⟨rfl, by simp, ?_, by simp⟩
      simp [State.columns]

theorem createDbOpen_trace (env : Env) (isNew : Bool) (s : State) :
    ∃ evs, (createDbOpen env isNew s).2.trace = s.trace ++ evs
      ∧ ∀ ev ∈ evs, ev = Event.connect (dsn env.flagDbFilename) ∨ ev = Event.createTable := by
  cases isNew with
  | false => exact ⟨[Event.connect (dsn env.flagDbFilename)], by simp [createDbOpen_false]⟩
  | true =>
    refine ⟨[Event.connect (dsn env.flagDbFilename), Event.createTable], ?_, by simp⟩
    rw [createDbOpen_true_state, Execute_create_trace]
    simp

theorem createDbOpen_node_other (env : Env) (isNew : Bool) (s : State) (j : Nat)
    (hj : j ≠ env.engineFile (dsn env.flagDbFilename)) :
    (createDbOpen env isNew s).2.node j = s.node j := by
  cases isNew with
  | false => simp [createDbOpen_false]
  | true =>
    rw [createDbOpen_true_state, Execute_create_node_other _ _ _ _ hj]
    rfl

/-- The trace of `createDb`: the existence check first, then removal,
connection and table creation; no removal unless truncate is set. -/
theorem createDb_trace (env : Env) (s : State) :
    ∃ evs, (createDb env env.flagDbFilename s).2.trace
        = s.trace ++ Event.stat env.flagDbFilename :: evs
      ∧ (∀ ev ∈ evs, ev = Event.remove env.flagDbFilename
          ∨ ev = Event.connect (dsn env.flagDbFilename) ∨ ev = Event.createTable)
      ∧ (env.flagTruncate = false → Event.remove env.flagDbFilename ∉ evs) := by
  unfold createDb FileExists
  simp only
  split
  · rename_i hft
    simp only [Bool.and_eq_true] at hft
    unfold FileDelete
    cases env.deleteErr env.flagDbFilename with
    | some e =>
      refine ⟨[Event.remove env.flagDbFilename], by simp, by simp, ?_⟩
      intro hf; rw [hf] at hft; simp at hft
    | none =>
      simp only
      obtain ⟨evs, he, hm⟩ := createDbOpen_trace env true
        (((s.log (Event.stat env.flagDbFilename)).log (Event.remove env.flagDbFilename)).setNode
          (env.resolve env.flagDbFilename) Node.absent)
      refine ⟨Event.remove env.flagDbFilename :: evs, ?_, ?_, ?_⟩
      · rw [he]; simp
      · intro ev hev
        rcases List.mem_cons.mp hev with rfl | hev
        · exact Or.inl rfl
        · exact Or.inr (hm ev hev)
      · intro hf; rw [hf] at hft; simp at hft
  · obtain ⟨evs, he, hm⟩ := createDbOpen_trace env
      (!decide (s.node (env.resolve env.flagDbFilename) ≠ Node.absent))
      (s.log (Event.stat env.flagDbFilename))
    refine ⟨evs, ?_, ?_, ?_⟩
    · rw [he]; simp
    · intro ev hev; exact Or.inr (hm ev hev)
    · intro _ hmem
      rcases hm _ hmem with h | h <;> cases h

/-- Only the file named by the flag and the file the engine opens can change
in `createDb`. -/
theorem createDb_node_other (env : Env) (s : State) (j : Nat)
    (hj : j ≠ env.resolve env.flagDbFilename)
    (hje : j ≠ env.engineFile (dsn env.flagDbFilename)) :
    (createDb env env.flagDbFilename s).2.node j = s.node j := by
  unfold createDb FileExists
  simp only
  split
  · unfold FileDelete
    cases env.deleteErr env.flagDbFilename with
    | some e => rfl
    | none =>
      simp only
      rw [createDbOpen_node_other _ _ _ _ hje, setNode_other _ _ hj]
      rfl
  · rw [createDbOpen_node_other _ _ _ _ hje]
    rfl

/-- Without truncate, `createDb` on a store path where something exists
changes no file: it records the data source name and executes nothing. -/
theorem createDb_keep_node (env : Env) (s : State) (htr : env.flagTruncate = false)
    (hn : s.node (env.resolve env.flagDbFilename) ≠ Node.absent) :
    (createDb env env.flagDbFilename s).2.node = s.node := by
  unfold createDb FileExists
  simp only [htr, Bool.and_false, Bool.false_eq_true, if_false, ne_eq, hn, not_false_eq_true,
    decide_True, Bool.not_true]
  rfl

theorem createDb_ok_handle {env : Env} {s s1 : State} {h : Nat}
    (hc : createDb env env.flagDbFilename s = (Except.ok h, s1)) :
    h = env.engineFile (dsn env.flagDbFilename) := by
  unfold createDb FileExists at hc
  simp only at hc
  split at hc
  · unfold FileDelete at hc
    cases hde : env.deleteErr env.flagDbFilename with
    | some e => simp [hde] at hc
    | none =>
      simp only [hde] at hc
      exact createDbOpen_ok_handle hc
  · exact createDbOpen_ok_handle hc

/-- C5, amended: let the store filename be one whose data source name stands
for the same file.  Whenever the store file is absent, or the truncate flag is
set, or the file already holds the table `files` of the program, a `createDb`
that returns successfully returns a connection on the store file, and that
file then holds the table `files` with the columns `(id, source, path,
hash)`. -/
theorem createDb_table_created (env : Env) (s s' : State) (h : Nat)
    (hsame : env.engineFile (dsn env.flagDbFilename) = env.resolve env.flagDbFilename)
    (hcase : s.node (env.resolve env.flagDbFilename) = Node.absent
      ∨ env.flagTruncate = true
      ∨ ∃ rows, s.node (env.resolve env.flagDbFilename) = Node.sqlite (some rows))
    (hok : createDb env env.flagDbFilename s = (Except.ok h, s')) :
    h = env.resolve env.flagDbFilename
    ∧ s'.columns h = some ["id", "source", "path", "hash"]
    ∧ ∃ rows : List Row, s'.rows h = some rows := by
  unfold createDb FileExists at hok
  simp only at hok
  by_cases hfound : s.node (env.resolve env.flagDbFilename) = Node.absent
  · simp only [hfound, ne_eq, not_true_eq_false, decide_False, Bool.false_and,
      Bool.false_eq_true, if_false, Bool.not_false] at hok
    obtain ⟨hh, hrows, hcols, -⟩ :=
      createDbOpen_true_absent env (by rw [hsame]; exact hfound) hok
    exact ⟨hh.trans hsame, hcols, [], hrows⟩
  · by_cases htr : env.flagTruncate = true
    · simp only [ne_eq, hfound, not_false_eq_true, decide_True, htr, Bool.and_self,
        if_true, FileDelete] at hok
      cases hde : env.deleteErr env.flagDbFilename with
      | some e => simp [hde] at hok
      | none =>
        simp only [hde] at hok
        obtain ⟨hh, hrows, hcols, -⟩ :=
          createDbOpen_true_absent env (by rw [hsame]; exact setNode_same _ _ _) hok
        exact ⟨hh.trans hsame, hcols, [], hrows⟩
    · have htf : env.flagTruncate = false := by simpa using htr
      simp only [ne_eq, hfound, not_false_eq_true, decide_True, htf, Bool.and_false,
        Bool.false_eq_true, if_false, Bool.not_true] at hok
      rw [createDbOpen_false] at hok
      simp only [Prod.mk.injEq, Except.ok.injEq] at hok
      obtain ⟨hh, rfl⟩ := hok
      rcases hcase with hc | hc | ⟨rows, hc⟩
      · exact absurd hc hfound
      · exact absurd hc htr
      · have hn : s.node h = Node.sqlite (some rows) := by
          rw [← hh, hsame]; exact hc
        refine ⟨hh.symm.trans hsame, ?_, rows, ?_⟩
        · simp [State.columns, hn, filesColumns]
        · simp [State.rows, hn]

/-- C6, amended: let the store file be present.  A `createDb` that succeeds
with truncate set has removed that file before connecting and then executed
the table creation; if the data source name of the store filename stands for
that same file, the connection is on it and the store holds an empty `files`
table.  And a `createDb` with truncate not set leaves the whole file system,
the store file and its rows included, as it was. -/
theorem createDb_truncate (env : Env) (s : State) (t : Option (List Row))
    (hprior : s.node (env.resolve env.flagDbFilename) = Node.sqlite t) :
    (∀ h s', createDb { env with flagTruncate := true } env.flagDbFilename s
          = (Except.ok h, s') →
        s'.trace = s.trace ++ [Event.stat env.flagDbFilename, Event.remove env.flagDbFilename,
            Event.connect (dsn env.flagDbFilename), Event.createTable]
        ∧ (env.engineFile (dsn env.flagDbFilename) = env.resolve env.flagDbFilename →
            h = env.resolve env.flagDbFilename ∧ s'.rows h = some []))
    ∧ (createDb { env with flagTruncate := false } env.flagDbFilename s).2.node = s.node := by
  constructor
  · intro h s' hok
    unfold createDb FileExists at hok
    simp only [hprior, ne_eq, not_false_eq_true, decide_True, Bool.and_self, if_true,
      FileDelete, reduceCtorEq] at hok
    cases hde : env.deleteErr env.flagDbFilename with
    | some e => simp [hde] at hok
    | none =>
      simp only [hde] at hok
      constructor
      · have hs := congrArg Prod.snd hok
        simp only at hs
        rw [← hs, createDbOpen_true_state, Execute_create_trace]
        simp [dsn]
      · intro hsame
        obtain ⟨hh, hrows, -, -⟩ := createDbOpen_true_absent
          { env with flagTruncate := true }
          (by show _ = Node.absent; rw [hsame]; exact setNode_same _ _ _) hok
        exact ⟨hh.trans hsame, hrows⟩
  · exact createDb_keep_node { env with flagTruncate := false } s rfl (by simp [hprior])

/-! ## Validation in run -/

theorem run_of_createDb_error {env : Env} {sched : Schedule} {s s1 : State} {err : Err}
    (hc : createDb env env.flagDbFilename s = (Except.error err, s1)) :
    run env sched s = (some err, idle { s1 with db := none }) := by
  simp [run, hc]

theorem run_invalid {env : Env} (sched : Schedule) {s s1 : State} {h : Nat}
    (hq : env.flagQuery = "") (hi : env.flagInclude ≠ "")
    (hbad : env.flagSource = "" ∨ includeExists env s = false)
    (hc : createDb env env.flagDbFilename s = (Except.ok h, s1)) :
    ∃ err, run env sched s
      = (some err, Close (idle (State.log { s1 with db := some h } (Event.stat env.flagInclude)))) := by
  have hinc : includeExists env s = decide (s1.node (env.resolve env.flagInclude) ≠ Node.absent) := by
    simp [includeExists, FileExists, hc]
  simp only [run, hc, hq, hi, FileExists, ne_eq, not_true_eq_false, if_false, not_false_eq_true,
    if_true]
  by_cases hfound : s1.node (env.resolve env.flagInclude) = Node.absent
  · exact ⟨Err.fileNotFound env.flagInclude, by simp [hfound]⟩
  · rcases hbad with hsrc | hex
    · exact ⟨Err.undefinedSource env.flagSource, by simp [hfound, hsrc]⟩
    · rw [hinc] at hex
      simp [hfound] at hex

/-- C4: in ingest mode (no query, an include directory given), when the source
tag is empty, or when the include directory is found missing, `run` returns an
error; it has walked no directory, read no file and inserted nothing, and no
goroutine was launched. -/
theorem run_validation_order (env : Env) (sched : Schedule) (s : State)
    (hq : env.flagQuery = "") (hi : env.flagInclude ≠ "")
    (hbad : env.flagSource = "" ∨ includeExists env s = false) :
    (∃ err, (run env sched s).1 = some err)
    ∧ (∃ evs, (run env sched s).2.st.trace = s.trace ++ evs
        ∧ ∀ ev ∈ evs, (∀ d, ev ≠ Event.walk d) ∧ (∀ p, ev ≠ Event.read p)
            ∧ (∀ a b c, ev ≠ Event.insert a b c))
    ∧ (run env sched s).2.wg = 0
    ∧ (run env sched s).2.goroutines = [] := by
  obtain ⟨evs, htr, hev, -⟩ := createDb_trace env s
  cases hc : createDb env env.flagDbFilename s with
  | mk r s1 =>
    rw [hc] at htr
    cases r with
    | error err =>
      rw [run_of_createDb_error hc]
      refine ⟨⟨err, rfl⟩, ⟨Event.stat env.flagDbFilename :: evs, htr, ?_⟩, rfl, rfl⟩
      intro ev hmem
      rcases List.mem_cons.mp hmem with rfl | hmem
      · simp
      · rcases hev ev hmem with rfl | rfl | rfl <;> simp
    | ok h =>
      obtain ⟨err, hrun⟩ := run_invalid sched hq hi hbad hc
      rw [hrun]
      refine ⟨⟨err, rfl⟩, ⟨Event.stat env.flagDbFilename :: evs
        ++ [Event.stat env.flagInclude, Event.close], ?_, ?_⟩, rfl, rfl⟩
      · simp only [Close, idle, log_trace]
        show (s1.trace ++ [Event.stat env.flagInclude]) ++ [Event.close] = _
        rw [htr]; simp
      · intro ev hmem
        simp only [List.cons_append, List.mem_cons, List.mem_append, List.mem_singleton,
          List.not_mem_nil, or_false] at hmem
        rcases hmem with rfl | hmem | rfl | rfl
        · simp
        · rcases hev ev hmem with rfl | rfl | rfl <;> simp
        · simp
        · simp

/-- Witness of C4: an empty source tag with the directory present, and a
missing directory with a source tag. -/
theorem run_validation_order_witness :
    (truncEnv.flagQuery = "" ∧ truncEnv.flagInclude ≠ "" ∧ truncEnv.flagSource = ""
      ∧ includeExists truncEnv demoState = true
      ∧ (run truncEnv lazySchedule demoState).1 = some (Err.undefinedSource "")
      ∧ (run truncEnv lazySchedule demoState).2.goroutines = [])
    ∧ (demoEnv.flagSource = "t1"
      ∧ includeExists { demoEnv with flagInclude := "nowhere" } demoState = false
      ∧ (run { demoEnv with flagInclude := "nowhere" } lazySchedule demoState).1
          = some (Err.fileNotFound "nowhere")
      ∧ (run { demoEnv with flagInclude := "nowhere" } lazySchedule demoState).2.goroutines = []) :=
  ⟨⟨by decide, by decide, by decide, by decide, by decide,
      (run_validation_order truncEnv lazySchedule demoState (by decide) (by decide)
        (Or.inl (by decide))).2.2.2⟩,
    ⟨by decide, by decide, by decide,
      (run_validation_order { demoEnv with flagInclude := "nowhere" } lazySchedule demoState
        (by decide) (by decide) (Or.inr (by decide))).2.2.2⟩⟩

/-- C7, amended: in ingest mode with failing validation `run` returns an
error having walked, read and inserted nothing, but validation comes after
`createDb`: the store path is examined first.  With truncate unset nothing is
removed, and a store file that exists keeps its content: the file system, all
prior rows included, is as before. -/
theorem run_validation_store (env : Env) (sched : Schedule) (s : State)
    (hq : env.flagQuery = "") (hi : env.flagInclude ≠ "")
    (hbad : env.flagSource = "" ∨ includeExists env s = false) :
    (∃ err, (run env sched s).1 = some err)
    ∧ (∃ evs, (run env sched s).2.st.trace = s.trace ++ Event.stat env.flagDbFilename :: evs
        ∧ (∀ ev ∈ evs, (∀ d, ev ≠ Event.walk d) ∧ (∀ p, ev ≠ Event.read p)
            ∧ (∀ a b c, ev ≠ Event.insert a b c))
        ∧ (env.flagTruncate = false → Event.remove env.flagDbFilename ∉ evs))
    ∧ (env.flagTruncate = false → s.node (env.resolve env.flagDbFilename) ≠ Node.absent →
        (run env sched s).2.st.node = s.node) := by
  obtain ⟨evs, htr, hev, hrm⟩ := createDb_trace env s
  cases hc : createDb env env.flagDbFilename s with
  | mk r s1 =>
    rw [hc] at htr
    have hkeep : env.flagTruncate = false →
        s.node (env.resolve env.flagDbFilename) ≠ Node.absent → s1.node = s.node := by
      intro h1 h2
      have := createDb_keep_node env s h1 h2
      rw [hc] at this
      exact this
    cases r with
    | error err =>
      rw [run_of_createDb_error hc]
      refine ⟨⟨err, rfl⟩, ⟨evs, htr, ?_, hrm⟩, hkeep⟩
      intro ev hmem
      rcases hev ev hmem with rfl | rfl | rfl <;> simp
    | ok h =>
      obtain ⟨err, hrun⟩ := run_invalid sched hq hi hbad hc
      rw [hrun]
      refine ⟨⟨err, rfl⟩, ⟨evs ++ [Event.stat env.flagInclude, Event.close], ?_, ?_, ?_⟩, hkeep⟩
      · simp only [Close, idle, log_trace]
        show (s1.trace ++ [Event.stat env.flagInclude]) ++ [Event.close] = _
        rw [htr]; simp
      · intro ev hmem
        simp only [List.mem_cons, List.mem_append, List.mem_singleton,
          List.not_mem_nil, or_false] at hmem
        rcases hmem with hmem | rfl | rfl
        · rcases hev ev hmem with rfl | rfl | rfl <;> simp
        · simp
        · simp
      · intro hf hmem
        simp only [List.mem_cons, List.mem_append, List.mem_singleton,
          List.not_mem_nil, or_false] at hmem
        rcases hmem with hmem | hmem | hmem
        · exact hrm hf hmem
        · cases hmem
        · cases hmem

/-- Witness of C7, amended: no source tag, truncate unset, a store file with
one row. -/
theorem run_validation_store_witness :
    ({ demoEnv with flagSource := "" } : Env).flagQuery = ""
    ∧ ({ demoEnv with flagSource := "" } : Env).flagInclude ≠ ""
    ∧ ({ demoEnv with flagSource := "" } : Env).flagSource = ""
    ∧ (demoStore (some [oldRow])).node 0 = Node.sqlite (some [oldRow])
    ∧ (run { demoEnv with flagSource := "" } lazySchedule (demoStore (some [oldRow]))).2.st.node
        = (demoStore (some [oldRow])).node :=
  ⟨by decide, by decide, by decide, by decide,
    (run_validation_store { demoEnv with flagSource := "" } lazySchedule
      (demoStore (some [oldRow])) (by decide) (by decide) (Or.inl (by decide))).2.2
      (by decide) (by decide)⟩

/-- C7 as stated fails: with truncate set and no source tag, `run` returns the
validation error after the store file was removed and created anew; the prior
row is gone. -/
theorem run_validation_store_counterexample :
    truncEnv.flagQuery = "" ∧ truncEnv.flagInclude ≠ "" ∧ truncEnv.flagSource = ""
    ∧ truncEnv.flagTruncate = true
    ∧ (demoStore (some [oldRow])).rows 0 = some [oldRow]
    ∧ (run truncEnv lazySchedule (demoStore (some [oldRow]))).1 = some (Err.undefinedSource "")
    ∧ (run truncEnv lazySchedule (demoStore (some [oldRow]))).2.st.rows 0 = some []
    ∧ (run truncEnv lazySchedule (demoStore (some [oldRow]))).2.st.trace
        = [Event.stat "files.db", Event.remove "files.db",
           Event.connect "file:files.db?cache=shared",
           Event.createTable, Event.stat "data", Event.close] := by
  decide

/-- C5 as stated fails, with truncate unset, in each of these states.  On a
database file without a `files` table `createDb` returns successfully and the
store still has no `files` table: nothing was executed.  On a database file
whose table `files` has the columns `(name, size)` it returns successfully and
the table keeps those columns.  And for the store filename `a?b.db`, with a
file of that name present and holding the table, it returns successfully a
connection on the file `a`, which does not exist. -/
theorem createDb_table_counterexample :
    ((demoStore none).node (demoEnv.resolve demoEnv.flagDbFilename) = Node.sqlite none
      ∧ demoEnv.flagTruncate = false
      ∧ (createDb demoEnv demoEnv.flagDbFilename (demoStore none)).1 = Except.ok 0
      ∧ (createDb demoEnv demoEnv.flagDbFilename (demoStore none)).2.rows 0 = none
      ∧ (createDb demoEnv demoEnv.flagDbFilename (demoStore none)).2.columns 0 = none
      ∧ (createDb demoEnv demoEnv.flagDbFilename (demoStore none)).2.trace
          = [Event.stat "files.db", Event.connect "file:files.db?cache=shared"])
    ∧ ((createDb demoEnv demoEnv.flagDbFilename
          (demoState.setNode 0 (Node.sqliteOther ["name", "size"] []))).1 = Except.ok 0
      ∧ (createDb demoEnv demoEnv.flagDbFilename
          (demoState.setNode 0 (Node.sqliteOther ["name", "size"] []))).2.columns 0
          = some ["name", "size"])
    ∧ (queryNameEnv.flagTruncate = false
      ∧ (queryNameState (Node.sqlite (some [oldRow])) Node.absent).node
          (queryNameEnv.resolve queryNameEnv.flagDbFilename) = Node.sqlite (some [oldRow])
      ∧ (createDb queryNameEnv queryNameEnv.flagDbFilename
          (queryNameState (Node.sqlite (some [oldRow])) Node.absent)).1 = Except.ok 9
      ∧ queryNameEnv.resolve "a" = 9
      ∧ (createDb queryNameEnv queryNameEnv.flagDbFilename
          (queryNameState (Node.sqlite (some [oldRow])) Node.absent)).2.node 9 = Node.absent
      ∧ (createDb queryNameEnv queryNameEnv.flagDbFilename
          (queryNameState (Node.sqlite (some [oldRow])) Node.absent)).2.columns 9 = none) := by
  decide

/-- Witness of C5, amended: the store file absent. -/
theorem createDb_table_created_witness :
    demoEnv.engineFile (dsn demoEnv.flagDbFilename) = demoEnv.resolve demoEnv.flagDbFilename
    ∧ demoState.node (demoEnv.resolve demoEnv.flagDbFilename) = Node.absent
    ∧ (createDb demoEnv demoEnv.flagDbFilename demoState).1 = Except.ok 0
    ∧ 0 = demoEnv.resolve demoEnv.flagDbFilename
    ∧ (createDb demoEnv demoEnv.flagDbFilename demoState).2.columns 0
        = some ["id", "source", "path", "hash"]
    ∧ ∃ rows : List Row,
        (createDb demoEnv demoEnv.flagDbFilename demoState).2.rows 0 = some rows :=
  ⟨by decide, by decide, by decide,
    createDb_table_created demoEnv demoState (createDb demoEnv demoEnv.flagDbFilename demoState).2 0
      (by decide) (Or.inl (by decide)) (Prod.ext (by decide) rfl)⟩

/-- C6 as stated fails: for the store filename `a?b.db` the data source name
stands for the file `a`.  With truncate set, `createDb` removes the file
`a?b.db` and returns a connection on `a`, whose prior row is still there: the
opened store is not empty. -/
theorem createDb_truncate_counterexample :
    (queryNameState (Node.sqlite (some [oldRow])) (Node.sqlite (some [oldRow]))).node
        (queryNameEnv.resolve queryNameEnv.flagDbFilename) = Node.sqlite (some [oldRow])
    ∧ queryNameEnv.resolve "a" = 9
    ∧ (queryNameState (Node.sqlite (some [oldRow])) (Node.sqlite (some [oldRow]))).rows 9
        = some [oldRow]
    ∧ (createDb { queryNameEnv with flagTruncate := true } queryNameEnv.flagDbFilename
        (queryNameState (Node.sqlite (some [oldRow])) (Node.sqlite (some [oldRow])))).1
        = Except.ok 9
    ∧ (createDb { queryNameEnv with flagTruncate := true } queryNameEnv.flagDbFilename
        (queryNameState (Node.sqlite (some [oldRow])) (Node.sqlite (some [oldRow])))).2.rows 9
        = some [oldRow]
    ∧ (createDb { queryNameEnv with flagTruncate := true } queryNameEnv.flagDbFilename
        (queryNameState (Node.sqlite (some [oldRow])) (Node.sqlite (some [oldRow])))).2.node
          (queryNameEnv.resolve queryNameEnv.flagDbFilename) = Node.absent
    ∧ (createDb { queryNameEnv with flagTruncate := true } queryNameEnv.flagDbFilename
        (queryNameState (Node.sqlite (some [oldRow])) (Node.sqlite (some [oldRow])))).2.trace
        = [Event.stat "a?b.db", Event.remove "a?b.db",
           Event.connect "file:a?b.db?cache=shared", Event.createTable] := by
  decide

/-- Witness of C6, amended: a store file with one row, opened with and without
truncate. -/
theorem createDb_truncate_witness :
    (demoStore (some [oldRow])).node (demoEnv.resolve demoEnv.flagDbFilename)
      = Node.sqlite (some [oldRow])
    ∧ demoEnv.engineFile (dsn demoEnv.flagDbFilename) = demoEnv.resolve demoEnv.flagDbFilename
    ∧ (createDb { demoEnv with flagTruncate := true } demoEnv.flagDbFilename
        (demoStore (some [oldRow]))).1 = Except.ok 0
    ∧ (createDb { demoEnv with flagTruncate := true } demoEnv.flagDbFilename
          (demoStore (some [oldRow]))).2.trace
        = (demoStore (some [oldRow])).trace
          ++ [Event.stat demoEnv.flagDbFilename, Event.remove demoEnv.flagDbFilename,
              Event.connect (dsn demoEnv.flagDbFilename), Event.createTable]
    ∧ (0 = demoEnv.resolve demoEnv.flagDbFilename
      ∧ (createDb { demoEnv with flagTruncate := true } demoEnv.flagDbFilename
          (demoStore (some [oldRow]))).2.rows 0 = some [])
    ∧ (createDb { demoEnv with flagTruncate := false } demoEnv.flagDbFilename
        (demoStore (some [oldRow]))).2.node = (demoStore (some [oldRow])).node :=
  have h := (createDb_truncate demoEnv (demoStore (some [oldRow])) (some [oldRow])
    (by decide)).1 0 _ (Prod.ext (by decide) rfl)
  ⟨by decide, by decide, by decide, h.1, h.2 (by decide),
    (createDb_truncate demoEnv (demoStore (some [oldRow])) (some [oldRow]) (by decide)).2⟩

/-- Witness of C10: `data/a.txt` and `data/copy.txt` hold the same two bytes. -/
theorem md5_content_identity_witness :
    readNode demoEnv ((demoOpen []).node (demoEnv.resolve "data/a.txt")) = Except.ok [104, 105]
    ∧ readNode demoEnv ((demoOpen [oldRow]).node (demoEnv.resolve "data/copy.txt"))
        = Except.ok [104, 105]
    ∧ (md5 demoEnv "data/a.txt" (demoOpen [])).1 = (md5 demoEnv "data/copy.txt" (demoOpen [oldRow])).1
    ∧ (md5 demoEnv "data/a.txt" (md5 demoEnv "data/a.txt" (demoOpen [])).2).1
        = (md5 demoEnv "data/a.txt" (demoOpen [])).1
    ∧ ∀ r1 r2 : Row,
        (processFile demoEnv "t1" "data/a.txt" (demoOpen [])).2.rows 0 = some ([] ++ [r1]) →
        (processFile demoEnv "t2" "data/copy.txt" (demoOpen [oldRow])).2.rows 0
          = some ([oldRow] ++ [r2]) →
        r1.hash = r2.hash :=
  have h := md5_content_identity demoEnv "data/a.txt" "data/copy.txt" "t1" "t2" (demoOpen [])
    (demoOpen [oldRow]) [104, 105] (by decide) (by decide)
  ⟨by decide, by decide, h.1, h.2.1, fun r1 r2 h1 h2 =>
    h.2.2 0 0 [] [oldRow] r1 r2 (by decide) (by decide) (by decide) (by decide) h1 h2⟩

set_option maxRecDepth 100000 in
/-- The rows `processFile` appends for the two copies in the demonstration
tree: different paths and source tags, the same hash, the MD5 of `hi`. -/
theorem processFile_copies_rows :
    (processFile demoEnv "t1" "data/a.txt" (demoOpen [])).2.rows 0
      = some [Row.mk 1 "t1" "data/a.txt" "49f68a5c8493ec2c0bf489821c21fc3b"]
    ∧ (processFile demoEnv "t2" "data/copy.txt" (demoOpen [oldRow])).2.rows 0
      = some [oldRow, Row.mk 2 "t2" "data/copy.txt" "49f68a5c8493ec2c0bf489821c21fc3b"] := by
  decide

/-! ## One goroutine step -/

/-- The two steps of a goroutine make up one call of `processFile`: run to its
end, a freshly launched goroutine leaves the state `processFile` leaves. -/
theorem finish_start_eq_processFile (env : Env) (source fileName : String) (s : State) :
    finish env (Goroutine.start source fileName) s = (processFile env source fileName s).2 := by
  unfold finish processFile
  by_cases hf : fileName = env.flagDbFilename
  · simp [step, hf]
  · simp only [step, hf, if_false]
    cases hm : md5 env fileName s with
    | mk r s1 =>
      cases r with
      | error err => rfl
      | ok hash =>
        simp only
        cases hdb : s1.db with
        | none => rfl
        | some h =>
          simp only
          cases hx : Execute env h (Stmt.insertFile source fileName hash) s1 with
          | mk r2 s2 => cases r2 <;> rfl

theorem step_spec {env : Env} {s0 : State} {h : Nat} {g : Goroutine} {s : State}
    {rows : List Row} (hdb : s.db = some h) (hfs : ∀ j, j ≠ h → s.node j = s0.node j)
    (hsafe : Safe env h g) (hrows : s.rows h = some rows) :
    (step env g s).2.db = some h
    ∧ (∀ j, j ≠ h → (step env g s).2.node j = s0.node j)
    ∧ (∀ g1, (step env g s).1 = some g1 → Safe env h g1)
    ∧ ∃ extra, (step env g s).2.rows h = some (rows ++ extra)
        ∧ extra.map Row.data ++ ((step env g s).1.bind (pendingRow env s0)).toList
            = (pendingRow env s0 g).toList := by
  cases g with
  | start source filename =>
    by_cases hf : filename = env.flagDbFilename
    · have hst : step env (Goroutine.start source filename) s = (none, s) := by
        simp [step, hf]
      rw [hst]
      refine ⟨hdb, hfs, by simp, [], by simpa using hrows, ?_⟩
      simp [pendingRow, hf]
    · have hres : env.resolve filename ≠ h := by
        rcases hsafe with h1 | h1
        · exact absurd h1 hf
        · exact h1
      have hnode : s.node (env.resolve filename) = s0.node (env.resolve filename) :=
        hfs _ hres
      cases hr : readNode env (s0.node (env.resolve filename)) with
      | error e =>
        have hst : step env (Goroutine.start source filename) s
            = (none, s.log (Event.read filename)) := by
          simp [step, hf, md5_of_read_error (hnode ▸ hr)]
        rw [hst]
        refine ⟨hdb, hfs, by simp, [], by simpa using hrows, ?_⟩
        simp [pendingRow, hf, hr]
      | ok bytes =>
        have hst : step env (Goroutine.start source filename) s
            = (some (Goroutine.hashed source filename (EncodeToString (md5Sum bytes))),
                s.log (Event.read filename)) := by
          simp [step, hf, md5_of_read (hnode ▸ hr)]
        rw [hst]
        refine ⟨hdb, hfs, ?_, [], by simpa using hrows, ?_⟩
        · intro g1 hg1
          simp only [Option.some.injEq] at hg1
          subst hg1
          exact trivial
        · simp [pendingRow, hf, hr]
  | hashed source filename hash =>
    cases hie : env.insertErr source filename hash with
    | some e =>
      have hst : step env (Goroutine.hashed source filename hash) s
          = (none, s.log (Event.insert source filename hash)) := by
        simp [step, hdb, Execute, hie]
      rw [hst]
      refine ⟨hdb, hfs, by simp, [], by simpa using hrows, ?_⟩
      simp [pendingRow, hie]
    | none =>
      have hst : step env (Goroutine.hashed source filename hash) s
          = (none, (s.log (Event.insert source filename hash)).setNode h
              (Node.sqlite (some (rows ++ [Row.mk (nextId rows) source filename hash])))) := by
        simp [step, hdb, Execute_insert_ok hie hrows]
      rw [hst]
      refine ⟨hdb, ?_, by simp, [Row.mk (nextId rows) source filename hash], by simp, ?_⟩
      · intro j hj
        rw [setNode_other _ _ hj]
        exact hfs j hj
      · simp [pendingRow, hie, Row.data]

theorem finish_spec {env : Env} {s0 : State} {h : Nat} {g : Goroutine} {s : State}
    {rows : List Row} (hdb : s.db = some h) (hfs : ∀ j, j ≠ h → s.node j = s0.node j)
    (hsafe : Safe env h g) (hrows : s.rows h = some rows) :
    (finish env g s).db = some h
    ∧ (∀ j, j ≠ h → (finish env g s).node j = s0.node j)
    ∧ ∃ extra, (finish env g s).rows h = some (rows ++ extra)
        ∧ extra.map Row.data = (pendingRow env s0 g).toList := by
  obtain ⟨hdb1, hfs1, hsafe1, extra1, hrows1, hpend1⟩ := step_spec hdb hfs hsafe hrows
  unfold finish
  cases hst : step env g s with
  | mk og s1 =>
    rw [hst] at hdb1 hfs1 hsafe1 hrows1 hpend1
    cases og with
    | none =>
      refine ⟨hdb1, hfs1, extra1, hrows1, ?_⟩
      simpa using hpend1
    | some g1 =>
      obtain ⟨hdb2, hfs2, -, extra2, hrows2, hpend2⟩ :=
        step_spec hdb1 hfs1 (hsafe1 g1 rfl) hrows1
      have hnone : (step env g1 s1).1 = none := by
        cases g1 with
        | start a b =>
          cases g with
          | start c d =>
            simp only [step] at hst
            split at hst
            · cases hst
            · split at hst <;> cases hst
          | hashed c d e =>
            simp only [step] at hst
            split at hst <;> cases hst
        | hashed a b c =>
          simp only [step]
          split <;> rfl
      refine ⟨hdb2, hfs2, extra1 ++ extra2, ?_, ?_⟩
      · rw [hrows2, List.append_assoc]
      · rw [hnone] at hpend2
        have hpend2 : extra2.map Row.data ++ [] = (pendingRow env s0 g1).toList := hpend2
        rw [List.append_nil] at hpend2
        have hpend3 : extra1.map Row.data ++ (pendingRow env s0 g1).toList
            = (pendingRow env s0 g).toList := hpend1
        rw [List.map_append, hpend2, hpend3]

/-! ## The pool of goroutines -/

theorem perm_cons_eraseIdx {α : Type} (l : List α) (i : Nat) (a : α) (h : l[i]? = some a) :
    l.Perm (a :: l.eraseIdx i) := by
  induction l generalizing i with
  | nil => simp at h
  | cons x xs ih =>
    cases i with
    | zero =>
      simp only [List.getElem?_cons_zero, Option.some.injEq] at h
      subst h
      exact List.Perm.refl _
    | succ i =>
      simp only [List.getElem?_cons_succ] at h
      simp only [List.eraseIdx_cons_succ]
      exact ((ih i h).cons x).trans (List.Perm.swap a x _)

theorem set_perm_cons_eraseIdx {α : Type} (l : List α) (i : Nat) (a b : α)
    (h : l[i]? = some a) : (l.set i b).Perm (b :: l.eraseIdx i) := by
  induction l generalizing i with
  | nil => simp at h
  | cons x xs ih =>
    cases i with
    | zero => exact List.Perm.refl _
    | succ i =>
      simp only [List.getElem?_cons_succ] at h
      simp only [List.set_cons_succ, List.eraseIdx_cons_succ]
      exact ((ih i h).cons x).trans (List.Perm.swap b x _)

theorem mem_of_getElem?_eq_some {α : Type} {l : List α} {i : Nat} {a : α}
    (h : l[i]? = some a) : a ∈ l := by
  obtain ⟨hi, rfl⟩ := List.getElem?_eq_some.mp h
  exact List.getElem_mem hi

theorem length_pos_of_getElem?_eq_some {α : Type} {l : List α} {i : Nat} {a : α}
    (h : l[i]? = some a) : i < l.length := by
  obtain ⟨hi, -⟩ := List.getElem?_eq_some.mp h
  exact hi

theorem schedule_idle {env : Env} {y : Sys} {i : Nat} (hg : y.goroutines[i]? = none) :
    schedule env y i = y := by
  simp [schedule, hg]

theorem schedule_done {env : Env} {y : Sys} {i : Nat} {g : Goroutine} {s1 : State}
    (hg : y.goroutines[i]? = some g) (hst : step env g y.st = (none, s1)) :
    schedule env y i = { st := s1, wg := y.wg - 1, goroutines := y.goroutines.eraseIdx i } := by
  simp [schedule, hg, hst]

theorem schedule_more {env : Env} {y : Sys} {i : Nat} {g g1 : Goroutine} {s1 : State}
    (hg : y.goroutines[i]? = some g) (hst : step env g y.st = (some g1, s1)) :
    schedule env y i = { st := s1, wg := y.wg, goroutines := y.goroutines.set i g1 } := by
  simp [schedule, hg, hst]

theorem schedule_good {env : Env} {s0 : State} {h : Nat} {rows0 : List Row}
    {target : List (String × String × String)} {y : Sys} (i : Nat)
    (hy : Good env s0 h rows0 target y) : Good env s0 h rows0 target (schedule env y i) := by
  obtain ⟨hdb, hfs, hsafe, hwg, added, hrows, hperm⟩ := hy
  cases hg : y.goroutines[i]? with
  | none =>
    rw [schedule_idle hg]
    exact ⟨hdb, hfs, hsafe, hwg, added, hrows, hperm⟩
  | some g =>
    have hmem : g ∈ y.goroutines := mem_of_getElem?_eq_some hg
    have hlt : i < y.goroutines.length := length_pos_of_getElem?_eq_some hg
    obtain ⟨hdb1, hfs1, hsafe1, extra, hrows1, hpend⟩ := step_spec hdb hfs (hsafe g hmem) hrows
    have hA := (perm_cons_eraseIdx y.goroutines i g hg).filterMap (pendingRow env s0)
    cases hst : step env g y.st with
    | mk og s1 =>
      rw [hst] at hdb1 hfs1 hsafe1 hrows1 hpend
      cases og with
      | none =>
        rw [schedule_done hg hst]
        refine ⟨hdb1, hfs1, ?_, ?_, added ++ extra, ?_, ?_⟩
        · intro g1 hg1
          exact hsafe g1 (List.mem_of_mem_eraseIdx hg1)
        · show y.wg - 1 = (y.goroutines.eraseIdx i).length
          rw [List.length_eraseIdx, if_pos hlt, hwg]
        · show s1.rows h = some (rows0 ++ (added ++ extra))
          rw [← List.append_assoc]; exact hrows1
        · show ((added ++ extra).map Row.data
            ++ (y.goroutines.eraseIdx i).filterMap (pendingRow env s0)).Perm target
          have hpend1 : extra.map Row.data = (pendingRow env s0 g).toList := by
            simpa using hpend
          refine List.Perm.trans ?_ hperm
          rw [List.map_append, List.append_assoc]
          refine List.Perm.append_left _ ?_
          refine List.Perm.trans ?_ hA.symm
          rw [hpend1]
          cases hp : pendingRow env s0 g with
          | none => simp [List.filterMap_cons, hp]
          | some d => simp [List.filterMap_cons, hp]
      | some g1 =>
        have hB := (set_perm_cons_eraseIdx y.goroutines i g g1 hg).filterMap (pendingRow env s0)
        rw [schedule_more hg hst]
        refine ⟨hdb1, hfs1, ?_, ?_, added ++ extra, ?_, ?_⟩
        · intro g2 hg2
          rcases List.mem_or_eq_of_mem_set hg2 with h2 | h2
          · exact hsafe g2 h2
          · subst h2; exact hsafe1 g2 rfl
        · show y.wg = (y.goroutines.set i g1).length
          rw [List.length_set, hwg]
        · show s1.rows h = some (rows0 ++ (added ++ extra))
          rw [← List.append_assoc]; exact hrows1
        · show ((added ++ extra).map Row.data
            ++ (y.goroutines.set i g1).filterMap (pendingRow env s0)).Perm target
          have hpend1 : extra.map Row.data ++ (pendingRow env s0 g1).toList
              = (pendingRow env s0 g).toList := hpend
          refine List.Perm.trans ?_ hperm
          rw [List.map_append, List.append_assoc]
          refine List.Perm.append_left _ ?_
          refine List.Perm.trans (List.Perm.append_left _ hB) ?_
          refine List.Perm.trans ?_ hA.symm
          have e1 : (g1 :: y.goroutines.eraseIdx i).filterMap (pendingRow env s0)
              = (pendingRow env s0 g1).toList
                ++ (y.goroutines.eraseIdx i).filterMap (pendingRow env s0) := by
            cases hp : pendingRow env s0 g1 <;> simp [List.filterMap_cons, hp]
          have e2 : (g :: y.goroutines.eraseIdx i).filterMap (pendingRow env s0)
              = (pendingRow env s0 g).toList
                ++ (y.goroutines.eraseIdx i).filterMap (pendingRow env s0) := by
            cases hp : pendingRow env s0 g <;> simp [List.filterMap_cons, hp]
          rw [e1, e2, ← List.append_assoc, hpend1]

theorem runSchedule_good {env : Env} {s0 : State} {h : Nat} {rows0 : List Row}
    {target : List (String × String × String)} (choices : List Nat) {y : Sys}
    (hy : Good env s0 h rows0 target y) :
    Good env s0 h rows0 target (runSchedule env choices y) := by
  unfold runSchedule
  induction choices generalizing y with
  | nil => exact hy
  | cons i is ih => exact ih (schedule_good i hy)

/-! ## processDir and the wait -/

theorem good_log {env : Env} {s0 : State} {h : Nat} {rows0 : List Row}
    {target : List (String × String × String)} {y : Sys} (ev : Event)
    (hy : Good env s0 h rows0 target y) :
    Good env s0 h rows0 target { y with st := y.st.log ev } := hy

theorem visit_good {env : Env} {s0 : State} {h : Nat} {rows0 : List Row}
    {target : List (String × String × String)} {y : Sys} (source : String) (e : Entry)
    (hy : Good env s0 h rows0 target y)
    (hsafe : e.isDir = false → Safe env h (Goroutine.start source e.filename)) :
    (visit source e y).1 = none
    ∧ Good env s0 h rows0 (target ++ (entryRow env s0 source e).toList) (visit source e y).2 := by
  obtain ⟨hdb, hfs, hsafes, hwg, added, hrows, hperm⟩ := hy
  unfold visit entryRow
  cases hd : e.isDir with
  | true =>
    simp only [if_true, Option.toList_none, List.append_nil]
    exact ⟨trivial, hdb, hfs, hsafes, hwg, added, hrows, hperm⟩
  | false =>
    simp only [Bool.false_eq_true, if_false]
    refine ⟨trivial, hdb, hfs, ?_, ?_, added, hrows, ?_⟩
    · intro g hg
      rcases List.mem_append.mp hg with hg | hg
      · exact hsafes g hg
      · rw [List.mem_singleton.mp hg]; exact hsafe hd
    · show y.wg + 1 = (y.goroutines ++ [Goroutine.start source e.filename]).length
      rw [List.length_append, hwg]; rfl
    · show (added.map Row.data ++ (y.goroutines ++ [Goroutine.start source e.filename]).filterMap
        (pendingRow env s0)).Perm _
      rw [List.filterMap_append, ← List.append_assoc]
      have e1 : [Goroutine.start source e.filename].filterMap (pendingRow env s0)
          = (pendingRow env s0 (Goroutine.start source e.filename)).toList := by
        cases hp : pendingRow env s0 (Goroutine.start source e.filename) <;>
          simp [List.filterMap_cons, hp]
      rw [e1]
      exact List.Perm.append_right _ hperm

theorem walkLoop_good {env : Env} {s0 : State} {h : Nat} {rows0 : List Row} (source : String)
    (entries : List Entry) :
    ∀ (choices : List (List Nat)) (target : List (String × String × String)) (y : Sys),
      Good env s0 h rows0 target y →
      (∀ e ∈ entries, e.isDir = false → Safe env h (Goroutine.start source e.filename)) →
      (walkLoop env (visit source) entries choices y).1 = none
      ∧ Good env s0 h rows0 (target ++ entries.filterMap (entryRow env s0 source))
          (walkLoop env (visit source) entries choices y).2 := by
  induction entries with
  | nil =>
    intro choices target y hy _
    simpa [walkLoop] using hy
  | cons e es ih =>
    intro choices target y hy hsafe
    obtain ⟨hv1, hv2⟩ := visit_good source e hy (hsafe e (List.mem_cons_self _ _))
    have hrest := ih choices.tail (target ++ (entryRow env s0 source e).toList)
      (runSchedule env (choices.headD []) (visit source e y).2)
      (runSchedule_good _ hv2) (fun e1 he1 => hsafe e1 (List.mem_cons_of_mem _ he1))
    have hw : walkLoop env (visit source) (e :: es) choices y
        = walkLoop env (visit source) es choices.tail
            (runSchedule env (choices.headD []) (visit source e y).2) := by
      rw [walkLoop]
      cases hvis : visit source e y with
      | mk r y1 =>
        rw [hvis] at hv1
        simp only at hv1
        subst hv1
        rfl
    rw [hw]
    have ht : target ++ (e :: es).filterMap (entryRow env s0 source)
        = target ++ (entryRow env s0 source e).toList ++ es.filterMap (entryRow env s0 source) := by
      cases hp : entryRow env s0 source e <;> simp [List.filterMap_cons, hp]
    rw [ht]
    exact hrest

theorem processDir_good {env : Env} {s0 : State} {h : Nat} {rows0 : List Row}
    {target : List (String × String × String)} {y : Sys} (choices : List (List Nat))
    (source dir : String) (hy : Good env s0 h rows0 target y)
    (hsafe : ∀ e ∈ (env.walk dir).1, e.isDir = false →
      Safe env h (Goroutine.start source e.filename)) :
    (processDir env choices source dir y).1 = (env.walk dir).2
    ∧ Good env s0 h rows0 (target ++ (env.walk dir).1.filterMap (entryRow env s0 source))
        (processDir env choices source dir y).2 := by
  obtain ⟨hw1, hw2⟩ := walkLoop_good source (env.walk dir).1 choices target
    { y with st := y.st.log (Event.walk dir) } (good_log (Event.walk dir) hy) hsafe
  unfold processDir WalkFiles
  cases hl : walkLoop env (visit source) (env.walk dir).1 choices
      { y with st := y.st.log (Event.walk dir) } with
  | mk r y1 =>
    rw [hl] at hw1 hw2
    simp only at hw1
    subst hw1
    simp only
    cases hwe : (env.walk dir).2 with
    | none => exact ⟨rfl, hw2⟩
    | some err => exact ⟨rfl, hw2⟩

theorem foldl_finish_spec {env : Env} {s0 : State} {h : Nat} (gs : List Goroutine) :
    ∀ (s : State) (rows : List Row), s.db = some h → (∀ j, j ≠ h → s.node j = s0.node j) →
      (∀ g ∈ gs, Safe env h g) → s.rows h = some rows →
      (gs.foldl (fun s g => finish env g s) s).db = some h
      ∧ (∀ j, j ≠ h → (gs.foldl (fun s g => finish env g s) s).node j = s0.node j)
      ∧ ∃ extra, (gs.foldl (fun s g => finish env g s) s).rows h = some (rows ++ extra)
          ∧ extra.map Row.data = gs.filterMap (pendingRow env s0) := by
  induction gs with
  | nil =>
    intro s rows hdb hfs _ hrows
    exact ⟨hdb, hfs, [], by simpa using hrows, rfl⟩
  | cons g gs ih =>
    intro s rows hdb hfs hsafe hrows
    obtain ⟨hdb1, hfs1, extra1, hrows1, hpend1⟩ :=
      finish_spec hdb hfs (hsafe g (List.mem_cons_self _ _)) hrows
    obtain ⟨hdb2, hfs2, extra2, hrows2, hpend2⟩ :=
      ih (finish env g s) (rows ++ extra1) hdb1 hfs1
        (fun g1 hg1 => hsafe g1 (List.mem_cons_of_mem _ hg1)) hrows1
    refine ⟨hdb2, hfs2, extra1 ++ extra2, ?_, ?_⟩
    · rw [List.foldl_cons, hrows2, List.append_assoc]
    · rw [List.map_append, hpend1, hpend2]
      cases hp : pendingRow env s0 g <;> simp [List.filterMap_cons, hp]

theorem Wait_good {env : Env} {s0 : State} {h : Nat} {rows0 : List Row}
    {target : List (String × String × String)} {y : Sys} (choices : List Nat)
    (hy : Good env s0 h rows0 target y) :
    (Wait env choices y).goroutines = []
    ∧ (Wait env choices y).wg = 0
    ∧ (Wait env choices y).st.db = some h
    ∧ (∀ j, j ≠ h → (Wait env choices y).st.node j = s0.node j)
    ∧ ∃ added, (Wait env choices y).st.rows h = some (rows0 ++ added)
        ∧ (added.map Row.data).Perm target := by
  obtain ⟨hdb, hfs, hsafe, hwg, added, hrows, hperm⟩ := runSchedule_good choices hy
  obtain ⟨hdb1, hfs1, extra, hrows1, hpend⟩ :=
    foldl_finish_spec (runSchedule env choices y).goroutines (runSchedule env choices y).st
      (rows0 ++ added) hdb hfs hsafe hrows
  refine ⟨rfl, ?_, hdb1, hfs1, added ++ extra, ?_, ?_⟩
  · show (runSchedule env choices y).wg - (runSchedule env choices y).goroutines.length = 0
    rw [hwg, Nat.sub_self]
  · show (List.foldl (fun s g => finish env g s) (runSchedule env choices y).st
      (runSchedule env choices y).goroutines).rows h = _
    rw [hrows1, List.append_assoc]
  · rw [List.map_append, hpend]
    exact hperm

/-! ## Fan-out -/

theorem good_idle (env : Env) (s : State) (h : Nat) (rows0 : List Row)
    (hdb : s.db = some h) (hrows : s.rows h = some rows0) :
    Good env s h rows0 [] (idle s) :=
  ⟨hdb, fun _ _ => rfl, by simp [idle], rfl, [], by simpa [idle] using hrows, by simp [idle]⟩

theorem filterMap_entryRow_readable (env : Env) (s : State) (source : String)
    (content : String → List Byte) (entries : List Entry)
    (hname : ∀ e ∈ entries, e.isDir = false → e.filename ≠ env.flagDbFilename)
    (hread : ∀ e ∈ entries, e.isDir = false →
      readNode env (s.node (env.resolve e.filename)) = Except.ok (content e.filename))
    (hins : ∀ e ∈ entries, e.isDir = false →
      env.insertErr source e.filename (EncodeToString (md5Sum (content e.filename))) = none) :
    entries.filterMap (entryRow env s source)
      = (entries.filter (fun e => !e.isDir)).map
          (fun e => (source, e.filename, EncodeToString (md5Sum (content e.filename)))) := by
  induction entries with
  | nil => rfl
  | cons e es ih =>
    have ih1 := ih (fun e1 h1 => hname e1 (List.mem_cons_of_mem _ h1))
      (fun e1 h1 => hread e1 (List.mem_cons_of_mem _ h1))
      (fun e1 h1 => hins e1 (List.mem_cons_of_mem _ h1))
    cases hd : e.isDir with
    | true => simp [List.filterMap_cons, entryRow, hd, List.filter_cons, ih1]
    | false =>
      have h1 := hname e (List.mem_cons_self _ _) hd
      have h2 := hread e (List.mem_cons_self _ _) hd
      have h3 := hins e (List.mem_cons_self _ _) hd
      simp [List.filterMap_cons, entryRow, hd, List.filter_cons, ih1, pendingRow, h1, h2, h3]

/-- C1: let the store be open on a `files` table, let the walk of `dir` report
`entries` (with any result), let every reported regular file be readable and
not be the store's own file, and let every insert succeed.  Then, whatever
the scheduler does, after `processDir` and the wait the table is the old table
followed by exactly one new row per reported regular file: the new rows are,
up to order, the rows `(source, path, md5 of the content)` of the regular
entries; none stands for a directory entry; and no goroutine is left. -/
theorem processDir_fan_out (env : Env) (choices : List (List Nat)) (wait : List Nat)
    (source dir : String) (s : State) (rows0 : List Row) (entries : List Entry)
    (werr : Option Err) (content : String → List Byte)
    (hdb : s.db = some (env.resolve env.flagDbFilename))
    (hrows : s.rows (env.resolve env.flagDbFilename) = some rows0)
    (hwalk : env.walk dir = (entries, werr))
    (hfiles : ∀ e ∈ entries, e.isDir = false →
      env.resolve e.filename ≠ env.resolve env.flagDbFilename
      ∧ readNode env (s.node (env.resolve e.filename)) = Except.ok (content e.filename))
    (hins : ∀ e ∈ entries, e.isDir = false →
      env.insertErr source e.filename (EncodeToString (md5Sum (content e.filename))) = none) :
    (processDir env choices source dir (idle s)).1 = werr
    ∧ (Wait env wait (processDir env choices source dir (idle s)).2).wg = 0
    ∧ (Wait env wait (processDir env choices source dir (idle s)).2).goroutines = []
    ∧ ∃ added,
        (Wait env wait (processDir env choices source dir (idle s)).2).st.rows
            (env.resolve env.flagDbFilename) = some (rows0 ++ added)
        ∧ (added.map Row.data).Perm
            ((entries.filter (fun e => !e.isDir)).map
              (fun e => (source, e.filename, EncodeToString (md5Sum (content e.filename)))))
        ∧ added.length = (entries.filter (fun e => !e.isDir)).length := by
  have hsafe : ∀ e ∈ (env.walk dir).1, e.isDir = false →
      Safe env (env.resolve env.flagDbFilename) (Goroutine.start source e.filename) := by
    intro e he hd
    rw [hwalk] at he
    exact Or.inr (hfiles e he hd).1
  obtain ⟨hres, hgood⟩ := processDir_good choices source dir
    (good_idle env s _ rows0 hdb hrows) hsafe
  obtain ⟨hgo, hwg, -, -, added, hadded, hperm⟩ := Wait_good wait hgood
  have hexp := filterMap_entryRow_readable env s source content entries
    (fun e he hd hname => (hfiles e he hd).1 (by rw [hname]))
    (fun e he hd => (hfiles e he hd).2) hins
  rw [hwalk] at hres hperm
  simp only [List.nil_append] at hperm
  rw [hexp] at hperm
  refine ⟨hres, hwg, hgo, added, hadded, hperm, ?_⟩
  have hlen := hperm.length_eq
  simpa using hlen

/-- Witness of C1: the demonstration tree, two regular files and a
directory, with a scheduler that interleaves the goroutines with the walk. -/
theorem processDir_fan_out_witness :
    (demoOpen [oldRow]).db = some (demoEnv.resolve demoEnv.flagDbFilename)
    ∧ (demoOpen [oldRow]).rows (demoEnv.resolve demoEnv.flagDbFilename) = some [oldRow]
    ∧ demoEnv.walk "data" = ([Entry.mk "data/a.txt" false, Entry.mk "data/sub" true,
        Entry.mk "data/sub/b.txt" false], none)
    ∧ (processDir demoEnv [[0], [], [1, 1]] "t1" "data" (idle (demoOpen [oldRow]))).1 = none
    ∧ (Wait demoEnv [0]
        (processDir demoEnv [[0], [], [1, 1]] "t1" "data" (idle (demoOpen [oldRow]))).2).wg = 0
    ∧ (Wait demoEnv [0]
        (processDir demoEnv [[0], [], [1, 1]] "t1" "data" (idle (demoOpen [oldRow]))).2).goroutines
        = []
    ∧ ∃ added,
        (Wait demoEnv [0]
          (processDir demoEnv [[0], [], [1, 1]] "t1" "data" (idle (demoOpen [oldRow]))).2).st.rows
            (demoEnv.resolve demoEnv.flagDbFilename) = some ([oldRow] ++ added)
        ∧ (added.map Row.data).Perm
            (([Entry.mk "data/a.txt" false, Entry.mk "data/sub" true,
                Entry.mk "data/sub/b.txt" false].filter (fun e => !e.isDir)).map
              (fun e => ("t1", e.filename, EncodeToString (md5Sum
                (if e.filename = "data/a.txt" then [104, 105] else [])))))
        ∧ added.length = ([Entry.mk "data/a.txt" false, Entry.mk "data/sub" true,
            Entry.mk "data/sub/b.txt" false].filter (fun e => !e.isDir)).length :=
  ⟨by decide, by decide, by decide,
    processDir_fan_out demoEnv [[0], [], [1, 1]] [0] "t1" "data" (demoOpen [oldRow]) [oldRow]
      [Entry.mk "data/a.txt" false, Entry.mk "data/sub" true, Entry.mk "data/sub/b.txt" false]
      none (fun p => if p = "data/a.txt" then [104, 105] else [])
      (by decide) (by decide) (by decide) (by decide) (by decide)⟩

set_option maxRecDepth 100000 in
/-- The table of the demonstration tree after ingestion under two schedules:
the same rows in a different order. -/
theorem processDir_demo_rows :
    (Wait demoEnv [0]
      (processDir demoEnv [[0], [], [1, 1]] "t1" "data" (idle (demoOpen [oldRow]))).2).st.rows 0
      = some [oldRow, Row.mk 2 "t1" "data/sub/b.txt" "d41d8cd98f00b204e9800998ecf8427e",
          Row.mk 3 "t1" "data/a.txt" "49f68a5c8493ec2c0bf489821c21fc3b"]
    ∧ (Wait demoEnv [] (processDir demoEnv [] "t1" "data" (idle (demoOpen [oldRow]))).2).st.rows 0
      = some [oldRow, Row.mk 2 "t1" "data/a.txt" "49f68a5c8493ec2c0bf489821c21fc3b",
          Row.mk 3 "t1" "data/sub/b.txt" "d41d8cd98f00b204e9800998ecf8427e"] := by
  decide

/-! ## Isolation -/

theorem run_ingest {env : Env} (sched : Schedule) {s s1 : State} {h : Nat}
    (hq : env.flagQuery = "") (hi : env.flagInclude ≠ "") (hsrc : env.flagSource ≠ "")
    (hc : createDb env env.flagDbFilename s = (Except.ok h, s1))
    (hdir : includeExists env s = true) :
    run env sched s
      = match processDir env sched.walk env.flagSource env.flagInclude
          (idle (State.log { s1 with db := some h } (Event.stat env.flagInclude))) with
        | (some err, y) => (some err, Close y)
        | (none, y) => (none, Close (Wait env sched.wait y)) := by
  have hinc : s1.node (env.resolve env.flagInclude) ≠ Node.absent := by
    simpa [includeExists, FileExists, hc] using hdir
  simp [run, hc, hq, hi, hsrc, FileExists, hinc]

/-- C2, amended: in a tree none of whose regular files is the store's own
file (neither the file the store filename names nor the file the connection
is on), let exactly one reported regular file, `bad`, be unreadable, every
other one readable, and every insert succeed.  Then `run` returns no error, no
goroutine is left, and the table is the table `createDb` opened followed by
exactly the rows of the other regular files, up to order: one row fewer than
there are regular files, and none for `bad`. -/
theorem run_isolation (env : Env) (sched : Schedule) (s s1 : State) (h : Nat)
    (rows0 : List Row) (pre post : List Entry) (bad : Entry) (content : String → List Byte)
    (hq : env.flagQuery = "") (hi : env.flagInclude ≠ "") (hsrc : env.flagSource ≠ "")
    (hc : createDb env env.flagDbFilename s = (Except.ok h, s1))
    (hrows : s1.rows h = some rows0)
    (hdir : includeExists env s = true)
    (hwalk : env.walk env.flagInclude = (pre ++ bad :: post, none))
    (hbad : bad.isDir = false
      ∧ (env.resolve bad.filename ≠ env.resolve env.flagDbFilename
          ∧ env.resolve bad.filename ≠ h)
      ∧ ∃ err, readNode env (s.node (env.resolve bad.filename)) = Except.error err)
    (hfiles : ∀ e ∈ pre ++ post, e.isDir = false →
      (env.resolve e.filename ≠ env.resolve env.flagDbFilename
        ∧ env.resolve e.filename ≠ h)
      ∧ readNode env (s.node (env.resolve e.filename)) = Except.ok (content e.filename))
    (hins : ∀ e ∈ pre ++ post, e.isDir = false →
      env.insertErr env.flagSource e.filename (EncodeToString (md5Sum (content e.filename)))
        = none) :
    (run env sched s).1 = none
    ∧ (run env sched s).2.wg = 0
    ∧ (run env sched s).2.goroutines = []
    ∧ ∃ added, (run env sched s).2.st.rows h = some (rows0 ++ added)
        ∧ (added.map Row.data).Perm
            (((pre ++ post).filter (fun e => !e.isDir)).map
              (fun e => (env.flagSource, e.filename,
                EncodeToString (md5Sum (content e.filename)))))
        ∧ added.length + 1 = ((pre ++ bad :: post).filter (fun e => !e.isDir)).length
        ∧ ((∀ e ∈ pre ++ post, e.filename ≠ bad.filename) →
            ∀ r ∈ added, r.path ≠ bad.filename) := by
  have hh : h = env.engineFile (dsn env.flagDbFilename) := createDb_ok_handle hc
  have hnode : ∀ j, j ≠ env.resolve env.flagDbFilename → j ≠ h → s1.node j = s.node j := by
    intro j hj hjh
    have := createDb_node_other env s j hj (hh ▸ hjh)
    rw [hc] at this
    exact this
  obtain ⟨hbd, hbs, berr, hbr⟩ := hbad
  set s3 : State := State.log { s1 with db := some h } (Event.stat env.flagInclude) with hs3
  have hnode3 : ∀ f, (env.resolve f ≠ env.resolve env.flagDbFilename ∧ env.resolve f ≠ h) →
      s3.node (env.resolve f) = s.node (env.resolve f) := by
    intro f hf
    exact hnode _ hf.1 hf.2
  have hsafe : ∀ e ∈ (env.walk env.flagInclude).1, e.isDir = false →
      Safe env h (Goroutine.start env.flagSource e.filename) := by
    intro e he hd
    rw [hwalk] at he
    rcases List.mem_append.mp he with he | he
    · exact Or.inr (hfiles e (List.mem_append_left _ he) hd).1.2
    · rcases List.mem_cons.mp he with rfl | he
      · exact Or.inr hbs.2
      · exact Or.inr (hfiles e (List.mem_append_right _ he) hd).1.2
  have hgood0 : Good env s3 h rows0 [] (idle s3) :=
    good_idle env s3 h rows0 rfl hrows
  obtain ⟨hres, hgood⟩ := processDir_good sched.walk env.flagSource env.flagInclude hgood0 hsafe
  obtain ⟨hgo, hwg, -, -, added, hadded, hperm⟩ := Wait_good sched.wait hgood
  have hexp : ∀ l : List Entry, (∀ e ∈ l, e ∈ pre ++ post) →
      l.filterMap (entryRow env s3 env.flagSource)
        = (l.filter (fun e => !e.isDir)).map
            (fun e => (env.flagSource, e.filename,
              EncodeToString (md5Sum (content e.filename)))) := by
    intro l hl
    refine filterMap_entryRow_readable env s3 env.flagSource content l ?_ ?_ ?_
    · intro e he hd hname
      exact (hfiles e (hl e he) hd).1.1 (by rw [hname])
    · intro e he hd
      rw [hnode3 _ (hfiles e (hl e he) hd).1]
      exact (hfiles e (hl e he) hd).2
    · intro e he hd
      exact hins e (hl e he) hd
  have hbadrow : entryRow env s3 env.flagSource bad = none := by
    have hne : bad.filename ≠ env.flagDbFilename := fun hname => hbs.1 (by rw [hname])
    simp [entryRow, hbd, pendingRow, hne, hnode3 _ hbs, hbr]
  have htarget : (env.walk env.flagInclude).1.filterMap (entryRow env s3 env.flagSource)
      = ((pre ++ post).filter (fun e => !e.isDir)).map
          (fun e => (env.flagSource, e.filename,
            EncodeToString (md5Sum (content e.filename)))) := by
    rw [hwalk]
    simp only [List.filterMap_append, List.filterMap_cons, hbadrow, List.filter_append,
      List.map_append]
    rw [hexp pre (fun e he => List.mem_append_left _ he),
      hexp post (fun e he => List.mem_append_right _ he)]
  rw [htarget, List.nil_append] at hperm
  rw [hwalk] at hres
  have hrun := run_ingest sched hq hi hsrc hc hdir
  rw [← hs3] at hrun
  cases hpd : processDir env sched.walk env.flagSource env.flagInclude (idle s3) with
  | mk r y =>
    rw [hpd] at hres hgo hwg hadded
    simp only at hres
    subst hres
    rw [hpd] at hrun
    simp only at hrun
    rw [hrun]
    refine ⟨rfl, hwg, hgo, added, hadded, hperm, ?_, ?_⟩
    · have hlen := hperm.length_eq
      simp only [List.length_map] at hlen
      rw [hlen]
      simp [List.filter_append, List.filter_cons, hbd]
      omega
    · intro huniq r hr hpath
      have hmem : r.data ∈ added.map Row.data := List.mem_map_of_mem _ hr
      have hmem2 := hperm.subset hmem
      simp only [List.mem_map, List.mem_filter] at hmem2
      obtain ⟨e, ⟨he, -⟩, heq⟩ := hmem2
      have hp : e.filename = r.path := by
        have := congrArg (fun d => d.2.1) heq
        simpa [Row.data] using this
      exact huniq e he (hp.trans hpath)

/-- Witness of C2, amended: `data/locked.txt` cannot be opened, the two other
files are ingested. -/
theorem run_isolation_witness :
    (createDb lockedEnv lockedEnv.flagDbFilename demoState).1 = Except.ok 0
    ∧ (createDb lockedEnv lockedEnv.flagDbFilename demoState).2.rows 0 = some []
    ∧ readNode lockedEnv (demoState.node (lockedEnv.resolve "data/locked.txt"))
        = Except.error (Err.os "permission denied")
    ∧ (run lockedEnv lazySchedule demoState).1 = none
    ∧ (run lockedEnv lazySchedule demoState).2.wg = 0
    ∧ (run lockedEnv lazySchedule demoState).2.goroutines = []
    ∧ ∃ added, (run lockedEnv lazySchedule demoState).2.st.rows 0 = some ([] ++ added)
        ∧ (added.map Row.data).Perm
            ((([Entry.mk "data/a.txt" false] ++ [Entry.mk "data/sub" true,
                Entry.mk "data/sub/b.txt" false]).filter (fun e => !e.isDir)).map
              (fun e => (lockedEnv.flagSource, e.filename, EncodeToString (md5Sum
                (if e.filename = "data/a.txt" then [104, 105] else [])))))
        ∧ added.length + 1
            = (([Entry.mk "data/a.txt" false] ++ Entry.mk "data/locked.txt" false ::
                [Entry.mk "data/sub" true, Entry.mk "data/sub/b.txt" false]).filter
                  (fun e => !e.isDir)).length
        ∧ ((∀ e ∈ [Entry.mk "data/a.txt" false] ++ [Entry.mk "data/sub" true,
              Entry.mk "data/sub/b.txt" false],
              e.filename ≠ (Entry.mk "data/locked.txt" false).filename) →
            ∀ r ∈ added, r.path ≠ (Entry.mk "data/locked.txt" false).filename) :=
  ⟨by decide, by decide, by decide,
    run_isolation lockedEnv lazySchedule demoState
      (createDb lockedEnv lockedEnv.flagDbFilename demoState).2 0 []
      [Entry.mk "data/a.txt" false] [Entry.mk "data/sub" true, Entry.mk "data/sub/b.txt" false]
      (Entry.mk "data/locked.txt" false)
      (fun p => if p = "data/a.txt" then [104, 105] else [])
      (by decide) (by decide) (by decide) (Prod.ext (by decide) rfl) (by decide) (by decide)
      (by decide) ⟨by decide, by decide, Err.os "permission denied", by decide⟩
      (by decide) (by decide)⟩

set_option maxRecDepth 100000 in
/-- C2 as stated fails: with flags `-db /srv/files.db -s t1 -i /srv` the
walker reports two regular files, the store file under the store filename and
an unreadable file.  The store file can be read, so exactly one of the two
cannot; yet `run`, which returns no error, inserts no row at all rather than
one: the store file is skipped by name. -/
theorem run_isolation_counterexample :
    selfEnv.flagDbFilename = "/srv/files.db"
    ∧ selfEnv.flagInclude = "/srv"
    ∧ selfEnv.walk selfEnv.flagInclude
      = ([Entry.mk "/srv/files.db" false, Entry.mk "/srv/data" true,
          Entry.mk "/srv/data/locked.txt" false], none)
    ∧ readNode selfEnv ((createDb selfEnv selfEnv.flagDbFilename selfState).2.node
        (selfEnv.resolve "/srv/data/locked.txt")) = Except.error (Err.os "permission denied")
    ∧ readNode selfEnv ((createDb selfEnv selfEnv.flagDbFilename selfState).2.node
        (selfEnv.resolve "/srv/files.db")) = Except.ok (selfEnv.serialize (some []))
    ∧ (run selfEnv lazySchedule selfState).1 = none
    ∧ (run selfEnv lazySchedule selfState).2.st.rows 0 = some []
    ∧ (run selfEnv lazySchedule selfState).2.st.trace
      = [Event.stat "/srv/files.db", Event.connect "file:/srv/files.db?cache=shared",
         Event.createTable, Event.stat "/srv", Event.walk "/srv",
         Event.read "/srv/data/locked.txt", Event.close] := by
  decide

/-! ## Self-exclusion -/

/-- Under any path string other than the store filename, `processFile` does
open the file it is given: the guard looks at the string only. -/
theorem processFile_other_name_reads (env : Env) (source fileName : String) (s : State)
    (hne : fileName ≠ env.flagDbFilename) :
    ∃ evs, (processFile env source fileName s).2.trace
      = s.trace ++ Event.read fileName :: evs := by
  unfold processFile md5
  simp only [hne, if_false]
  cases readNode env (s.node (env.resolve fileName)) with
  | error err => exact ⟨[], rfl⟩
  | ok bytes =>
    simp only [log_db]
    cases s.db with
    | none => exact ⟨[], rfl⟩
    | some h =>
      refine ⟨[Event.insert source fileName (EncodeToString (md5Sum bytes))], ?_⟩
      have ht := Execute_insert_trace env h source fileName (EncodeToString (md5Sum bytes))
        (s.log (Event.read fileName))
      cases hx : Execute env h (Stmt.insertFile source fileName (EncodeToString (md5Sum bytes)))
          (s.log (Event.read fileName)) with
      | mk r s2 =>
        rw [hx] at ht
        cases r with
        | some e => simpa [hx] using ht
        | none => simpa [hx] using ht

/-- C3, amended: when the walker reports the store file under the very string
that is the store filename, `processFile` returns at once: the state is
untouched, so the file is neither read nor hashed and no row is inserted; the
goroutine launched for it ends in one step without effect. -/
theorem processFile_self_exclusion (env : Env) (source fileName : String) (s : State)
    (hname : fileName = env.flagDbFilename) :
    processFile env source fileName s = (none, s)
    ∧ step env (Goroutine.start source fileName) s = (none, s)
    ∧ finish env (Goroutine.start source fileName) s = s := by
  subst hname
  refine ⟨processFile_store_name env source s, ?_, ?_⟩
  · simp [step]
  · simp [finish, step]

/-- Witness of C3, amended: the store filename `files.db`. -/
theorem processFile_self_exclusion_witness :
    "files.db" = demoEnv.flagDbFilename
    ∧ (processFile demoEnv "t1" "files.db" (demoOpen [oldRow])).1 = none
    ∧ (processFile demoEnv "t1" "files.db" (demoOpen [oldRow])).2.trace = []
    ∧ (processFile demoEnv "t1" "files.db" (demoOpen [oldRow])).2.rows 0 = some [oldRow] :=
  have h := (processFile_self_exclusion demoEnv "t1" "files.db" (demoOpen [oldRow])
    (by decide)).1
  ⟨by decide, by rw [h], by rw [h]; decide, by rw [h]; decide⟩

set_option maxRecDepth 100000 in
/-- C3 as stated fails: reported under the path `/srv/files.db`, which is not
the string `files.db`, the store's own file is read, hashed and given a row,
by `processFile` and so by a whole `run`. -/
theorem processFile_self_exclusion_counterexample :
    aliasEnv.resolve "/srv/files.db" = aliasEnv.resolve aliasEnv.flagDbFilename
    ∧ (demoOpen []).db = some (aliasEnv.resolve "/srv/files.db")
    ∧ (processFile aliasEnv "t1" "/srv/files.db" (demoOpen [])).1 = none
    ∧ (processFile aliasEnv "t1" "/srv/files.db" (demoOpen [])).2.trace
      = [Event.read "/srv/files.db",
         Event.insert "t1" "/srv/files.db" "d41d8cd98f00b204e9800998ecf8427e"]
    ∧ (processFile aliasEnv "t1" "/srv/files.db" (demoOpen [])).2.rows 0
      = some [Row.mk 1 "t1" "/srv/files.db" "d41d8cd98f00b204e9800998ecf8427e"]
    ∧ (run aliasEnv lazySchedule demoState).1 = none
    ∧ (run aliasEnv lazySchedule demoState).2.st.rows 0
      = some [Row.mk 1 "t1" "/srv/files.db" "d41d8cd98f00b204e9800998ecf8427e"] := by
  decide

/-! ## The completion barrier -/

set_option maxRecDepth 100000 in
/-- C8 fails on the code: the walk visits `data/a.txt`, for which a goroutine
is launched, and then returns an error; `run` returns that error without
waiting: the counter is 1, the goroutine has not run, nothing was inserted,
and the connection is already closed. -/
theorem run_walk_error_skips_wait :
    brokenWalkEnv.walk brokenWalkEnv.flagInclude
      = ([Entry.mk "data/a.txt" false], some (Err.walk "open data/sub: permission denied"))
    ∧ (run brokenWalkEnv lazySchedule demoState).1
      = some (Err.walk "open data/sub: permission denied")
    ∧ (run brokenWalkEnv lazySchedule demoState).2.wg = 1
    ∧ (run brokenWalkEnv lazySchedule demoState).2.goroutines
      = [Goroutine.start "t1" "data/a.txt"]
    ∧ (run brokenWalkEnv lazySchedule demoState).2.st.rows 0 = some []
    ∧ (run brokenWalkEnv lazySchedule demoState).2.st.trace
      = [Event.stat "files.db", Event.connect "file:files.db?cache=shared", Event.createTable,
         Event.stat "data", Event.walk "data", Event.close] := by
  decide

theorem schedule_counted {env : Env} {y : Sys} (i : Nat) (hy : y.wg = y.goroutines.length) :
    (schedule env y i).wg = (schedule env y i).goroutines.length := by
  cases hg : y.goroutines[i]? with
  | none => rw [schedule_idle hg]; exact hy
  | some g =>
    have hlt : i < y.goroutines.length := length_pos_of_getElem?_eq_some hg
    cases hst : step env g y.st with
    | mk og s1 =>
      cases og with
      | none =>
        rw [schedule_done hg hst]
        show y.wg - 1 = (y.goroutines.eraseIdx i).length
        rw [List.length_eraseIdx, if_pos hlt, hy]
      | some g1 =>
        rw [schedule_more hg hst]
        show y.wg = (y.goroutines.set i g1).length
        rw [List.length_set, hy]

theorem runSchedule_counted {env : Env} (choices : List Nat) {y : Sys}
    (hy : y.wg = y.goroutines.length) :
    (runSchedule env choices y).wg = (runSchedule env choices y).goroutines.length := by
  unfold runSchedule
  induction choices generalizing y with
  | nil => exact hy
  | cons i is ih => exact ih (schedule_counted i hy)

theorem walkLoop_counted (env : Env) (source : String) (entries : List Entry) :
    ∀ (choices : List (List Nat)) (y : Sys), y.wg = y.goroutines.length →
      (walkLoop env (visit source) entries choices y).2.wg
        = (walkLoop env (visit source) entries choices y).2.goroutines.length := by
  induction entries with
  | nil => intro choices y hy; exact hy
  | cons e es ih =>
    intro choices y hy
    rw [walkLoop]
    unfold visit
    cases hd : e.isDir with
    | true =>
      simp only [if_true]
      exact ih _ _ (runSchedule_counted _ hy)
    | false =>
      simp only [Bool.false_eq_true, if_false]
      refine ih _ _ (runSchedule_counted _ ?_)
      show y.wg + 1 = (y.goroutines ++ [Goroutine.start source e.filename]).length
      rw [List.length_append, hy]; rfl

theorem processDir_counted (env : Env) (choices : List (List Nat)) (source dir : String)
    (y : Sys) (hy : y.wg = y.goroutines.length) :
    (processDir env choices source dir y).2.wg
      = (processDir env choices source dir y).2.goroutines.length := by
  have h := walkLoop_counted env source (env.walk dir).1 choices
    { y with st := y.st.log (Event.walk dir) } hy
  unfold processDir WalkFiles
  cases hl : walkLoop env (visit source) (env.walk dir).1 choices
      { y with st := y.st.log (Event.walk dir) } with
  | mk r y1 =>
    rw [hl] at h
    cases r with
    | some err => exact h
    | none =>
      simp only
      cases (env.walk dir).2 with
      | none => exact h
      | some err => exact h

theorem Wait_counted (env : Env) (choices : List Nat) {y : Sys}
    (hy : y.wg = y.goroutines.length) :
    (Wait env choices y).wg = 0 ∧ (Wait env choices y).goroutines = [] := by
  refine ⟨?_, rfl⟩
  show (runSchedule env choices y).wg - (runSchedule env choices y).goroutines.length = 0
  rw [runSchedule_counted choices hy, Nat.sub_self]

/-- The barrier on the path that waits: whenever `run` returns without error,
the counter is zero and no goroutine is left, whatever the tree, the failures
and the scheduler; and at every return the counter equals the number of
goroutines still running. -/
theorem run_success_barrier (env : Env) (sched : Schedule) (s : State) :
    (run env sched s).2.wg = (run env sched s).2.goroutines.length
    ∧ ((run env sched s).1 = none →
        (run env sched s).2.wg = 0 ∧ (run env sched s).2.goroutines = []) := by
  unfold run
  cases hc : createDb env env.flagDbFilename s with
  | mk r s1 =>
    cases r with
    | error err => exact ⟨rfl, fun hn => by cases hn⟩
    | ok h =>
      simp only
      by_cases hq : env.flagQuery = ""
      · by_cases hi : env.flagInclude = ""
        · simp only [hq, hi, ne_eq, not_true_eq_false, if_false]
          exact ⟨rfl, fun _ => ⟨rfl, rfl⟩⟩
        · simp only [hq, hi, ne_eq, not_true_eq_false, if_false, not_false_eq_true, if_true]
          cases (FileExists env env.flagInclude { s1 with db := some h }).1 with
          | false => exact ⟨rfl, fun hn => by cases hn⟩
          | true =>
            simp only [Bool.not_true, Bool.false_eq_true, if_false]
            by_cases hsrc : env.flagSource = ""
            · simp only [hsrc, if_true]
              exact ⟨rfl, fun hn => by cases hn⟩
            · simp only [hsrc, if_false]
              have hcnt := processDir_counted env sched.walk env.flagSource
                env.flagInclude
                (idle (FileExists env env.flagInclude { s1 with db := some h }).2) rfl
              cases hpd : processDir env sched.walk env.flagSource env.flagInclude
                  (idle (FileExists env env.flagInclude { s1 with db := some h }).2) with
              | mk r y =>
                rw [hpd] at hcnt
                cases r with
                | some err => exact ⟨hcnt, fun hn => by cases hn⟩
                | none =>
                  obtain ⟨h1, h2⟩ := Wait_counted env sched.wait hcnt
                  refine ⟨?_, fun _ => ⟨h1, h2⟩⟩
                  show (Wait env sched.wait y).wg = (Wait env sched.wait y).goroutines.length
                  rw [h1, h2]; rfl
      · simp only [ne_eq, hq, not_false_eq_true, if_true]
        cases hqr : query env { s1 with db := some h } with
        | mk r s3 =>
          cases r with
          | some err => exact ⟨rfl, fun hn => by cases hn⟩
          | none => exact ⟨rfl, fun _ => ⟨rfl, rfl⟩⟩

set_option maxRecDepth 1000000 in
/-- The embedded digest agrees with the published MD5 values of the empty
message, of `abc`, of `hi`, and of a message of one hundred `a`, which spans
two blocks. -/
theorem md5Sum_test_vectors :
    EncodeToString (md5Sum []) = "d41d8cd98f00b204e9800998ecf8427e"
    ∧ EncodeToString (md5Sum [97, 98, 99]) = "900150983cd24fb0d6963f7d28e17f72"
    ∧ EncodeToString (md5Sum [104, 105]) = "49f68a5c8493ec2c0bf489821c21fc3b"
    ∧ EncodeToString (md5Sum (List.replicate 100 97)) = "36a92cc94a9e0fa21f625f8bfb007adf" := by
  decide

end FileHash
